import Mathlib

set_option maxRecDepth 100000

/-!
Verification development for the crawl_recipes repository.

This file gives a shallow embedding of the repository's core components:

* `src/utils.py`        : id-sequence signatures, normalized text hashes,
                          lenient datetime parsing, recipe-URL patterns;
* `src/harvest.py`      : listing-page id extraction and the per-keyword
                          harvest loops (sequential and batched);
* `src/supabase_rest.py`: the retrying HTTP client wrapper;
* `src/jsonld_recipe.py`: the JSON-LD recipe parser;
* `src/detail_worker.py`: one iteration of the detail-worker claim loop.

External libraries are modelled at their interface: the HTML parser
(selectolax) is modelled by handing the relevant pre-parsed pieces of a
document to the embedded code (anchor `href` attributes for listings, the
JSON-decoded `ld+json` script blocks for the recipe parser), and the JSON
decoder is modelled by an (already decoded) `JVal` tree, with `none`
standing for a block that raises `JSONDecodeError`.  Machine/crypto
arithmetic (SHA-256) is embedded directly over `Nat` with explicit
`% 2^32` reductions.  Python `\d` is modelled as an ASCII decimal digit
and `str.strip()` as trimming ASCII whitespace.
-/

/-- Python whitespace characters (ASCII subset) as stripped by `str.strip()`. -/
def isPySpace (c : Char) : Bool :=
  c = ' ' || c = '\t' || c = '\n' || c = '\r' || c.toNat = 11 || c.toNat = 12

/-- Strip leading and trailing whitespace from a character list (Python `str.strip()`). -/
def pyStripL (cs : List Char) : List Char :=
  ((cs.dropWhile isPySpace).reverse.dropWhile isPySpace).reverse

/-- Python `str.strip()` on a `String`. -/
def pyStrip (s : String) : String :=
  String.mk (pyStripL s.data)

/-- ASCII decimal digit test (modelling Python regex `\d`). -/
def isDig (c : Char) : Bool :=
  48 ≤ c.toNat && c.toNat ≤ 57

/-- Character for one decimal digit value. -/
def digitCh (d : Nat) : Char :=
  Char.ofNat (48 + d)

/-- Big-endian decimal digit characters of `n` (empty for `0`); the fuel
argument bounds the recursion depth and any fuel `≥ n` is enough. -/
def decDigitsAux : Nat → Nat → List Char
  | 0, _ => []
  | fuel + 1, n => if n = 0 then [] else decDigitsAux fuel (n / 10) ++ [digitCh (n % 10)]

/-- Decimal representation of a natural number (Python `str(n)` for `n ≥ 0`). -/
def decRepr (n : Nat) : List Char :=
  if n = 0 then ['0'] else decDigitsAux (n + 1) n

/-- Decimal representation as a `String`. -/
def natStr (n : Nat) : String :=
  String.mk (decRepr n)

/-- Decimal representation of an integer (Python `str(n)`). -/
def intStr (n : Int) : String :=
  if n < 0 then "-" ++ natStr n.natAbs else natStr n.natAbs

/-- Numeric value of a big-endian digit character list. -/
def digitsVal (cs : List Char) : Nat :=
  cs.foldl (fun a c => a * 10 + (c.toNat - 48)) 0

/-- Python `",".join(str(x) for x in ids)` over a list of ids. -/
def joinIds : List Nat → List Char
  | [] => []
  | [n] => decRepr n
  | n :: m :: rest => decRepr n ++ ',' :: joinIds (m :: rest)

/-! SHA-256, embedded over `Nat` with explicit `% 2 ^ 32` reductions
(faithful to `hashlib.sha256`). -/

/-- Word size modulus for SHA-256 arithmetic. -/
def w32 : Nat := 4294967296

/-- Rotate a 32-bit word right by `n` bits. -/
def rotr32 (x n : Nat) : Nat :=
  ((x >>> n) ||| (x <<< (32 - n))) % w32

/-- SHA-256 big sigma-0. -/
def bSig0 (x : Nat) : Nat := (rotr32 x 2) ^^^ (rotr32 x 13) ^^^ (rotr32 x 22)

/-- SHA-256 big sigma-1. -/
def bSig1 (x : Nat) : Nat := (rotr32 x 6) ^^^ (rotr32 x 11) ^^^ (rotr32 x 25)

/-- SHA-256 small sigma-0. -/
def sSig0 (x : Nat) : Nat := (rotr32 x 7) ^^^ (rotr32 x 18) ^^^ (x >>> 3)

/-- SHA-256 small sigma-1. -/
def sSig1 (x : Nat) : Nat := (rotr32 x 17) ^^^ (rotr32 x 19) ^^^ (x >>> 10)

/-- SHA-256 choose function. -/
def sha2Ch (e f g : Nat) : Nat := (e &&& f) ^^^ ((e ^^^ 4294967295) &&& g)

/-- SHA-256 majority function. -/
def sha2Maj (a b c : Nat) : Nat := (a &&& b) ^^^ (a &&& c) ^^^ (b &&& c)

/-- SHA-256 round constants. -/
def sha2K : List Nat :=
  [1116352408, 1899447441, 3049323471, 3921009573, 961987163,
   1508970993, 2453635748, 2870763221, 3624381080, 310598401,
   607225278, 1426881987, 1925078388, 2162078206, 2614888103,
   3248222580, 3835390401, 4022224774, 264347078, 604807628,
   770255983, 1249150122, 1555081692, 1996064986, 2554220882,
   2821834349, 2952996808, 3210313671, 3336571891, 3584528711,
   113926993, 338241895, 666307205, 773529912, 1294757372,
   1396182291, 1695183700, 1986661051, 2177026350, 2456956037,
   2730485921, 2820302411, 3259730800, 3345764771, 3516065817,
   3600352804, 4094571909, 275423344, 430227734, 506948616,
   659060556, 883997877, 958139571, 1322822218, 1537002063,
   1747873779, 1955562222, 2024104815, 2227730452, 2361852424,
   2428436474, 2756734187, 3204031479, 3329325298]

/-- Pad a byte message per SHA-256: `0x80`, zeros to 56 mod 64, then the
bit length as 8 big-endian bytes. -/
def sha2Pad (msg : List Nat) : List Nat :=
  let len := msg.length
  let bitLen := len * 8
  let zeros := (119 - len % 64) % 64
  msg ++ [128] ++ List.replicate zeros 0 ++
    [bitLen >>> 56 % 256, bitLen >>> 48 % 256, bitLen >>> 40 % 256,
     bitLen >>> 32 % 256, bitLen >>> 24 % 256, bitLen >>> 16 % 256,
     bitLen >>> 8 % 256, bitLen % 256]

/-- Group bytes into 32-bit big-endian words. -/
def bytesToWords : List Nat → List Nat
  | b0 :: b1 :: b2 :: b3 :: rest =>
    (((b0 * 256 + b1) * 256 + b2) * 256 + b3) :: bytesToWords rest
  | _ => []

/-- Split a word list into blocks of 16 words; the first argument is the
number of blocks. -/
def wordBlocks : Nat → List Nat → List (List Nat)
  | 0, _ => []
  | n + 1, ws => ws.take 16 :: wordBlocks n (ws.drop 16)

/-- One message-schedule extension step over the sliding window of the
last 16 words (oldest first). -/
def schedStep (w : List Nat) : Nat :=
  (sSig1 (w.getD 14 0) + w.getD 9 0 + sSig0 (w.getD 1 0) + w.getD 0 0) % w32

/-- Generate `n` extended schedule words from a 16-word window. -/
def schedExtend : Nat → List Nat → List Nat
  | 0, _ => []
  | n + 1, w =>
    let x := schedStep w
    x :: schedExtend n (w.drop 1 ++ [x])

/-- Full 64-word message schedule of one 16-word block. -/
def fullSched (block : List Nat) : List Nat :=
  block ++ schedExtend 48 block

/-- Working state of the SHA-256 compression function. -/
structure Sha2State where
  a : Nat
  b : Nat
  c : Nat
  d : Nat
  e : Nat
  f : Nat
  g : Nat
  h : Nat
deriving DecidableEq

/-- One compression round with a (constant, schedule-word) pair. -/
def sha2Round (s : Sha2State) (kw : Nat × Nat) : Sha2State :=
  let t1 := (s.h + bSig1 s.e + sha2Ch s.e s.f s.g + kw.1 + kw.2) % w32
  let t2 := (bSig0 s.a + sha2Maj s.a s.b s.c) % w32
  ⟨(t1 + t2) % w32, s.a, s.b, s.c, (s.d + t1) % w32, s.e, s.f, s.g⟩

/-- Compress one 16-word block into the running hash state. -/
def sha2Block (hs : Sha2State) (block : List Nat) : Sha2State :=
  let s := (sha2K.zip (fullSched block)).foldl sha2Round hs
  ⟨(hs.a + s.a) % w32, (hs.b + s.b) % w32, (hs.c + s.c) % w32,
   (hs.d + s.d) % w32, (hs.e + s.e) % w32, (hs.f + s.f) % w32,
   (hs.g + s.g) % w32, (hs.h + s.h) % w32⟩

/-- Initial SHA-256 hash state. -/
def sha2Init : Sha2State :=
  ⟨1779033703, 3144134277, 1013904242, 2773480762,
   1359893119, 2600822924, 528734635, 1541459225⟩

/-- Lowercase hex character of a value below 16. -/
def hexCh (d : Nat) : Char :=
  if d < 10 then Char.ofNat (48 + d) else Char.ofNat (87 + d)

/-- Eight lowercase hex digits of a 32-bit word. -/
def hex8 (x : Nat) : List Char :=
  [hexCh (x >>> 28 % 16), hexCh (x >>> 24 % 16), hexCh (x >>> 20 % 16),
   hexCh (x >>> 16 % 16), hexCh (x >>> 12 % 16), hexCh (x >>> 8 % 16),
   hexCh (x >>> 4 % 16), hexCh (x % 16)]

/-- SHA-256 lowercase hex digest of a byte message (`hashlib.sha256(..).hexdigest()`). -/
def sha256Hex (msg : List Nat) : String :=
  let padded := sha2Pad msg
  let words := bytesToWords padded
  let blocks := wordBlocks (words.length / 16) words
  let hs := blocks.foldl sha2Block sha2Init
  String.mk (hex8 hs.a ++ hex8 hs.b ++ hex8 hs.c ++ hex8 hs.d ++
             hex8 hs.e ++ hex8 hs.f ++ hex8 hs.g ++ hex8 hs.h)

/-- UTF-8 bytes of a string (`str.encode("utf-8")`). -/
def utf8Bytes (s : String) : List Nat :=
  s.data.flatMap fun c =>
    let n := c.toNat
    if n < 128 then [n]
    else if n < 2048 then [192 + n / 64, 128 + n % 64]
    else if n < 65536 then [224 + n / 4096, 128 + n / 64 % 64, 128 + n % 64]
    else [240 + n / 262144, 128 + n / 4096 % 64, 128 + n / 64 % 64, 128 + n % 64]

/-- Embedding of `utils.signature_of_ids`: SHA-256 hex digest of the
comma-joined decimal id sequence (the joined string is ASCII, so its UTF-8
bytes are its code points). -/
def signature_of_ids (ids : List Nat) : String :=
  sha256Hex ((joinIds ids).map Char.toNat)

/-- Python `str.split()` with no argument: split on whitespace runs,
dropping empty fragments. -/
def pySplitWs (cs : List Char) : List (List Char) :=
  (cs.splitOnP isPySpace).filter (· ≠ [])

/-- ASCII lowercase of one character (Python `str.lower()`, modelled for
the ASCII range). -/
def asciiLower (c : Char) : Char :=
  if 65 ≤ c.toNat ∧ c.toNat ≤ 90 then Char.ofNat (c.toNat + 32) else c

/-- Embedding of `utils.normalize_text_for_hash`: collapse whitespace runs
to single spaces, trim, lowercase. -/
def normalize_text_for_hash (s : String) : String :=
  String.mk ((List.intercalate [' '] (pySplitWs s.data)).map asciiLower)

/-- Embedding of `utils.sha256_text`: digest of the normalized form. -/
def sha256_text (s : String) : String :=
  sha256Hex (utf8Bytes (normalize_text_for_hash s))

/-! Properties of the decimal representation and the comma-joined id string. -/

theorem digitCh_toNat {d : Nat} (hd : d < 10) : (digitCh d).toNat = 48 + d := by
  interval_cases d <;> decide

theorem isDig_digitCh {d : Nat} (hd : d < 10) : isDig (digitCh d) = true := by
  interval_cases d <;> decide

theorem decDigitsAux_digits :
    ∀ (fuel n : Nat), ∀ c ∈ decDigitsAux fuel n, isDig c = true := by
  intro fuel
  induction fuel with
  | zero => intro n c hc; simp [decDigitsAux] at hc
  | succ fuel ih =>
    intro n c hc
    by_cases hn : n = 0
    · simp [decDigitsAux, hn] at hc
    · simp only [decDigitsAux, if_neg hn, List.mem_append, List.mem_singleton] at hc
      rcases hc with hc | hc
      · exact ih _ c hc
      · subst hc; exact isDig_digitCh (Nat.mod_lt _ (by norm_num))

theorem digitsVal_append_digit (cs : List Char) (c : Char) :
    digitsVal (cs ++ [c]) = digitsVal cs * 10 + (c.toNat - 48) := by
  simp [digitsVal, List.foldl_append]

theorem digitsVal_decDigitsAux :
    ∀ (fuel n : Nat), n ≤ fuel → digitsVal (decDigitsAux fuel n) = n := by
  intro fuel
  induction fuel with
  | zero =>
    intro n hn
    interval_cases n
    simp [decDigitsAux, digitsVal]
  | succ fuel ih =>
    intro n hn
    by_cases hn0 : n = 0
    · simp [decDigitsAux, hn0, digitsVal]
    · have hdiv : n / 10 ≤ fuel := by
        have h1 : n / 10 < n := Nat.div_lt_self (Nat.pos_of_ne_zero hn0) (by norm_num)
        omega
      rw [decDigitsAux, if_neg hn0, digitsVal_append_digit, ih _ hdiv,
          digitCh_toNat (Nat.mod_lt _ (by norm_num))]
      omega

theorem digitsVal_decRepr (n : Nat) : digitsVal (decRepr n) = n := by
  by_cases hn : n = 0
  · simp [decRepr, hn, digitsVal]
  · rw [decRepr, if_neg hn]
    exact digitsVal_decDigitsAux (n + 1) n (Nat.le_succ n)

theorem decRepr_injective : Function.Injective decRepr := by
  intro a b h
  have := digitsVal_decRepr a
  rw [h, digitsVal_decRepr] at this
  omega

theorem decRepr_digits (n : Nat) : ∀ c ∈ decRepr n, isDig c = true := by
  by_cases hn : n = 0
  · intro c hc; simp [decRepr, hn] at hc; subst hc; decide
  · rw [decRepr, if_neg hn]; exact decDigitsAux_digits (n + 1) n

theorem decRepr_ne_nil (n : Nat) : decRepr n ≠ [] := by
  by_cases hn : n = 0
  · simp [decRepr, hn]
  · rw [decRepr, if_neg hn, decDigitsAux, if_neg hn]
    simp

theorem comma_not_digit : isDig ',' = false := by decide

theorem digit_split :
    ∀ (u v s t : List Char), (∀ c ∈ u, isDig c = true) → (∀ c ∈ v, isDig c = true) →
      u ++ ',' :: s = v ++ ',' :: t → u = v ∧ s = t := by
  intro u
  induction u with
  | nil =>
    intro v s t _ hv h
    cases v with
    | nil => simpa using h
    | cons d v' =>
      simp only [List.nil_append, List.cons_append, List.cons.injEq] at h
      have : isDig ',' = true := h.1 ▸ hv d (List.mem_cons_self d v')
      simp [comma_not_digit] at this
  | cons c u' ih =>
    intro v s t hu hv h
    cases v with
    | nil =>
      simp only [List.cons_append, List.nil_append, List.cons.injEq] at h
      have : isDig ',' = true := h.1 ▸ hu c (List.mem_cons_self c u')
      simp [comma_not_digit] at this
    | cons d v' =>
      simp only [List.cons_append, List.cons.injEq] at h
      obtain ⟨rfl, h2⟩ := h
      have := ih v' s t (fun x hx => hu x (List.mem_cons_of_mem _ hx))
        (fun x hx => hv x (List.mem_cons_of_mem _ hx)) h2
      exact ⟨by rw [this.1], this.2⟩

theorem comma_mem_join_cons (b c : Nat) (t : List Nat) :
    ',' ∈ joinIds (b :: c :: t) := by
  simp [joinIds]

theorem joinIds_injective : ∀ l₁ l₂ : List Nat, joinIds l₁ = joinIds l₂ → l₁ = l₂ := by
  intro l₁
  induction l₁ with
  | nil =>
    intro l₂ h
    cases l₂ with
    | nil => rfl
    | cons b t =>
      cases t with
      | nil =>
        have hb : decRepr b = [] := by
          have : joinIds [b] = joinIds ([] : List Nat) := h.symm
          simpa [joinIds] using this
        exact absurd hb (decRepr_ne_nil b)
      | cons c t' =>
        exfalso
        have hnil : joinIds (b :: c :: t') = [] := h.symm
        simp only [joinIds, List.append_eq_nil] at hnil
        exact decRepr_ne_nil b hnil.1
  | cons a t ih =>
    intro l₂ h
    cases t with
    | nil =>
      cases l₂ with
      | nil =>
        have ha : decRepr a = [] := by simpa [joinIds] using h
        exact absurd ha (decRepr_ne_nil a)
      | cons b t' =>
        cases t' with
        | nil =>
          have h' : decRepr a = decRepr b := by simpa [joinIds] using h
          have hab : a = b := decRepr_injective h'
          rw [hab]
        | cons c t'' =>
          exfalso
          have hmem : ',' ∈ decRepr a := by
            have : decRepr a = joinIds (b :: c :: t'') := by simpa [joinIds] using h
            rw [this]
            exact comma_mem_join_cons b c t''
          have hd := decRepr_digits a ',' hmem
          simp [comma_not_digit] at hd
    | cons c t' =>
      cases l₂ with
      | nil =>
        exfalso
        have hnil : joinIds (a :: c :: t') = [] := h
        simp only [joinIds, List.append_eq_nil] at hnil
        exact decRepr_ne_nil a hnil.1
      | cons b s =>
        cases s with
        | nil =>
          exfalso
          have hmem : ',' ∈ decRepr b := by
            have : joinIds (a :: c :: t') = decRepr b := by simpa [joinIds] using h
            rw [← this]
            exact comma_mem_join_cons a c t'
          have hd := decRepr_digits b ',' hmem
          simp [comma_not_digit] at hd
        | cons d s' =>
          have h' : decRepr a ++ ',' :: joinIds (c :: t') =
              decRepr b ++ ',' :: joinIds (d :: s') := by
            simpa [joinIds] using h
          obtain ⟨h1, h2⟩ := digit_split _ _ _ _ (decRepr_digits a) (decRepr_digits b) h'
          have hab : a = b := decRepr_injective h1
          have hts : c :: t' = d :: s' := ih _ h2
          rw [hab, hts]

/-- Apply a permutation of positions to a list of ids. -/
def permApply (l : List Nat) (σ : Equiv.Perm (Fin l.length)) : List Nat :=
  List.ofFn fun i => l.get (σ i)

/-- Claim C9 counterexample: the non-identity swap on the sequence `[5, 5]`
permutes the sequence to itself, so `signature_of_ids` of the permuted
sequence equals that of the original even though the permutation is not
the identity; the claim as stated ("differs unless the permutation is the
identity") is therefore false at this input. -/
theorem claim_C9_counterexample :
    Equiv.swap (0 : Fin 2) (1 : Fin 2) ≠ Equiv.refl (Fin 2) ∧
    permApply [5, 5] (Equiv.swap (0 : Fin 2) (1 : Fin 2)) = [5, 5] ∧
    signature_of_ids (permApply [5, 5] (Equiv.swap (0 : Fin 2) (1 : Fin 2))) =
      signature_of_ids [5, 5] := by
  refine ⟨?_, ?_, ?_⟩
  · intro hcontra
    have h0 : Equiv.swap (0 : Fin 2) (1 : Fin 2) 0 = Equiv.refl (Fin 2) 0 := by rw [hcontra]
    simp [Equiv.swap_apply_left] at h0
  · decide
  · have hp : permApply [5, 5] (Equiv.swap (0 : Fin 2) (1 : Fin 2)) = [5, 5] := by decide
    rw [hp]

/-- Claim C9 (amended): `signature_of_ids` hashes the comma-joined decimal
string of the id sequence, and that hash input differs from the original's
whenever a permutation actually changes the sequence (it can coincide only
when the permuted sequence equals the original, e.g. for a non-identity
permutation of repeated ids); in particular `[1, 2]` and `[2, 1]` receive
different signatures. -/
theorem claim_C9_theorem :
    (∀ (l : List Nat) (σ : Equiv.Perm (Fin l.length)),
        permApply l σ ≠ l → joinIds (permApply l σ) ≠ joinIds l) ∧
    signature_of_ids [1, 2] ≠ signature_of_ids [2, 1] := by
  constructor
  · intro l σ hne hjoin
    exact hne (joinIds_injective _ _ hjoin)
  · decide

/-- Witness for claim C9 at a concrete input: the swap on `[1, 2]` changes
the sequence, so the hash inputs differ. -/
theorem claim_C9_witness :
    joinIds (permApply [1, 2] (Equiv.swap (0 : Fin 2) (1 : Fin 2))) ≠ joinIds [1, 2] :=
  claim_C9_theorem.1 [1, 2] (Equiv.swap (0 : Fin 2) (1 : Fin 2)) (by decide)

/-! Listing extractor (`harvest.extract_recipe_ids_from_listing`).  The
external HTML parser is modelled by the document's anchor `href`
attributes in document order (`none` = anchor without an href). -/

/-- Characters of the site-relative recipe path before the id. -/
def relPathChars : List Char := "/vn/cong-thuc/".data

/-- Characters of the absolute recipe URL before the id. -/
def absUrlChars : List Char := "https://cookpad.com/vn/cong-thuc/".data

/-- Regex tail `(?:[/?#].*)?$`: the rest is empty or starts with `/`, `?` or `#`. -/
def urlSuffixOk (rest : List Char) : Bool :=
  match rest with
  | [] => true
  | c :: _ => c = '/' || c = '?' || c = '#'

/-- Drop a literal prefix from a character list, or fail. -/
def dropPre : List Char → List Char → Option (List Char)
  | [], cs => some cs
  | _ :: _, [] => none
  | p :: ps, c :: cs => if c = p then dropPre ps cs else none

/-- Match `^<pre>(\d+)(?:[/?#].*)?$` against a character list, returning the
captured decimal id (shared engine of the two recipe-href regexes, which
differ only in their literal prefix). -/
def matchPre (p : List Char) (cs : List Char) : Option Nat :=
  match dropPre p cs with
  | none => none
  | some rest =>
    let ds := rest.takeWhile isDig
    let tl := rest.dropWhile isDig
    if ds = [] then none
    else if urlSuffixOk tl then some (digitsVal ds) else none

/-- Embedding of harvest regex `_RE_RECIPE_REL`. -/
def matchRecipeRel (cs : List Char) : Option Nat := matchPre relPathChars cs

/-- Embedding of harvest regex `_RE_RECIPE_ABS`. -/
def matchRecipeAbs (cs : List Char) : Option Nat := matchPre absUrlChars cs

/-- Per-anchor step of the extractor's first loop: skip missing/empty hrefs
(`if not href`), strip, try the relative pattern then the absolute one. -/
def hrefId (href : Option String) : Option Nat :=
  match href with
  | none => none
  | some s =>
    if s = "" then none
    else
      let t := pyStripL s.data
      match matchRecipeRel t with
      | some n => some n
      | none => matchRecipeAbs t

/-- All ids collected by the extractor's first loop, in document order. -/
def rawListingIds (anchors : List (Option String)) : List Nat :=
  anchors.filterMap hrefId

/-- Second loop of the extractor: de-duplicate keeping the first
occurrence (the Python `seen` set is modelled as a list). -/
def dedupFirstAux : List Nat → List Nat → List Nat
  | _, [] => []
  | seen, x :: xs =>
    if x ∈ seen then dedupFirstAux seen xs
    else x :: dedupFirstAux (x :: seen) xs

/-- Embedding of `harvest.extract_recipe_ids_from_listing`. -/
def extract_recipe_ids_from_listing (anchors : List (Option String)) : List Nat :=
  dedupFirstAux [] (rawListingIds anchors)

theorem mem_dedupFirstAux :
    ∀ (l seen : List Nat) (x : Nat),
      x ∈ dedupFirstAux seen l ↔ x ∈ l ∧ x ∉ seen := by
  intro l
  induction l with
  | nil => intro seen x; simp [dedupFirstAux]
  | cons y ys ih =>
    intro seen x
    by_cases hy : y ∈ seen
    · rw [dedupFirstAux, if_pos hy, ih]
      constructor
      · rintro ⟨hx, hns⟩; exact ⟨List.mem_cons_of_mem _ hx, hns⟩
      · rintro ⟨hx, hns⟩
        rcases List.mem_cons.mp hx with rfl | hx
        · exact absurd hy hns
        · exact ⟨hx, hns⟩
    · rw [dedupFirstAux, if_neg hy]
      simp only [List.mem_cons, ih]
      constructor
      · rintro (rfl | ⟨hx, hns⟩)
        · exact ⟨Or.inl rfl, hy⟩
        · exact ⟨Or.inr hx, fun hc => hns (Or.inr hc)⟩
      · rintro ⟨rfl | hx, hns⟩
        · exact Or.inl rfl
        · by_cases hxy : x = y
          · exact Or.inl hxy
          · exact Or.inr ⟨hx, fun hc => hc.elim hxy hns⟩

theorem nodup_dedupFirstAux :
    ∀ (l seen : List Nat), (dedupFirstAux seen l).Nodup := by
  intro l
  induction l with
  | nil => intro seen; simp [dedupFirstAux]
  | cons y ys ih =>
    intro seen
    by_cases hy : y ∈ seen
    · rw [dedupFirstAux, if_pos hy]; exact ih seen
    · rw [dedupFirstAux, if_neg hy]
      refine List.nodup_cons.mpr ⟨?_, ih (y :: seen)⟩
      intro hc
      exact ((mem_dedupFirstAux _ _ _).mp hc).2 (List.mem_cons_self _ _)

theorem pairwise_dedupFirstAux :
    ∀ (l seen : List Nat),
      (dedupFirstAux seen l).Pairwise (fun a b => l.indexOf a < l.indexOf b) := by
  intro l
  induction l with
  | nil => intro seen; simp [dedupFirstAux]
  | cons y ys ih =>
    intro seen
    have transport : ∀ seen', (∀ a ∈ dedupFirstAux seen' ys, a ≠ y) →
        (dedupFirstAux seen' ys).Pairwise
          (fun a b => (y :: ys).indexOf a < (y :: ys).indexOf b) := by
      intro seen' hne
      refine List.Pairwise.imp_of_mem ?_ (ih seen')
      intro a b ha hb hab
      rw [List.indexOf_cons_ne _ (Ne.symm (hne a ha)),
          List.indexOf_cons_ne _ (Ne.symm (hne b hb))]
      omega
    by_cases hy : y ∈ seen
    · rw [dedupFirstAux, if_pos hy]
      refine transport seen ?_
      intro a ha hc
      subst hc
      exact ((mem_dedupFirstAux _ _ _).mp ha).2 hy
    · rw [dedupFirstAux, if_neg hy]
      refine List.pairwise_cons.mpr ⟨?_, ?_⟩
      · intro b hb
        have hbne : b ≠ y :=
          fun hc => ((mem_dedupFirstAux _ _ _).mp hb).2 (hc ▸ List.mem_cons_self _ _)
        rw [List.indexOf_cons_self, List.indexOf_cons_ne _ (Ne.symm hbne)]
        omega
      · refine transport (y :: seen) ?_
        intro a ha hc
        subst hc
        exact ((mem_dedupFirstAux _ _ _).mp ha).2 (List.mem_cons_self _ _)

theorem dropPre_eq_some :
    ∀ (p cs r : List Char), dropPre p cs = some r ↔ cs = p ++ r := by
  intro p
  induction p with
  | nil => intro cs r; simp [dropPre]
  | cons a ps ih =>
    intro cs r
    cases cs with
    | nil => simp [dropPre]
    | cons c cs' =>
      by_cases hc : c = a
      · subst hc
        rw [dropPre, if_pos rfl]
        simp [ih]
      · rw [dropPre, if_neg hc]
        simp [hc]

theorem takeWhile_all_append {p : Char → Bool} :
    ∀ (ds tl : List Char), (∀ c ∈ ds, p c = true) →
      (tl = [] ∨ ∃ c cs, tl = c :: cs ∧ p c = false) →
      (ds ++ tl).takeWhile p = ds ∧ (ds ++ tl).dropWhile p = tl := by
  intro ds
  induction ds with
  | nil =>
    intro tl _ htl
    rcases htl with rfl | ⟨c, cs, rfl, hc⟩
    · simp
    · simp [List.takeWhile, List.dropWhile, hc]
  | cons d ds' ih =>
    intro tl hds htl
    have hd : p d = true := hds d (List.mem_cons_self _ _)
    have := ih tl (fun c hc => hds c (List.mem_cons_of_mem _ hc)) htl
    simp [List.takeWhile, List.dropWhile, hd, this.1, this.2]

theorem urlSuffixOk_head_not_digit :
    ∀ tl : List Char, urlSuffixOk tl = true →
      tl = [] ∨ ∃ c cs, tl = c :: cs ∧ isDig c = false := by
  intro tl htl
  cases tl with
  | nil => exact Or.inl rfl
  | cons c cs =>
    refine Or.inr ⟨c, cs, rfl, ?_⟩
    simp only [urlSuffixOk, Bool.or_eq_true, decide_eq_true_eq] at htl
    rcases htl with (rfl | rfl) | rfl <;> decide

theorem matchPre_eq_some (p cs : List Char) (n : Nat) :
    matchPre p cs = some n ↔
      ∃ ds tl, cs = p ++ ds ++ tl ∧ ds ≠ [] ∧ (∀ c ∈ ds, isDig c = true) ∧
        urlSuffixOk tl = true ∧ n = digitsVal ds := by
  constructor
  · intro h
    rw [matchPre] at h
    cases hdrop : dropPre p cs with
    | none => rw [hdrop] at h; exact absurd h (by simp)
    | some rest =>
      rw [hdrop] at h
      simp only at h
      by_cases hds : rest.takeWhile isDig = []
      · rw [if_pos hds] at h; exact absurd h (by simp)
      · rw [if_neg hds] at h
        by_cases hok : urlSuffixOk (rest.dropWhile isDig) = true
        · rw [if_pos hok] at h
          refine ⟨rest.takeWhile isDig, rest.dropWhile isDig, ?_, hds, ?_, hok, ?_⟩
          · rw [(dropPre_eq_some p cs rest).mp hdrop, List.append_assoc,
                List.takeWhile_append_dropWhile]
          · intro c hc; exact List.mem_takeWhile_imp hc
          · have h' : (some (digitsVal (rest.takeWhile isDig)) : Option Nat) = some n := h
            exact (Option.some.injEq _ _).mp h'.symm
        · rw [if_neg hok] at h; exact absurd h (by simp)
  · rintro ⟨ds, tl, rfl, hne, hdig, hok, rfl⟩
    have hdrop : dropPre p (p ++ ds ++ tl) = some (ds ++ tl) :=
      (dropPre_eq_some p _ _).mpr (by rw [List.append_assoc])
    have hsplit := takeWhile_all_append ds tl hdig (urlSuffixOk_head_not_digit tl hok)
    rw [matchPre, hdrop]
    simp only [hsplit.1, hsplit.2]
    rw [if_neg hne, if_pos hok]

theorem dropPre_rel_of_abs (cs : List Char) :
    dropPre relPathChars (absUrlChars ++ cs) = none := rfl

/-- Specification-side reading of the anchor patterns: an anchor matches
with id `n` exactly when its href is present and non-empty and its trimmed
text is one of the two fixed recipe prefixes, a non-empty run of decimal
digits whose value is `n`, and a tail that is empty or starts with `/`,
`?` or `#`. -/
def specAnchorMatch (href : Option String) (n : Nat) : Prop :=
  ∃ s ds tl, href = some s ∧ s ≠ "" ∧
    (pyStripL s.data = relPathChars ++ ds ++ tl ∨
      pyStripL s.data = absUrlChars ++ ds ++ tl) ∧
    ds ≠ [] ∧ (∀ c ∈ ds, isDig c = true) ∧ urlSuffixOk tl = true ∧ n = digitsVal ds

theorem hrefId_eq_some (href : Option String) (n : Nat) :
    hrefId href = some n ↔ specAnchorMatch href n := by
  constructor
  · intro h
    cases href with
    | none => exact absurd h (by simp [hrefId])
    | some s =>
      rw [hrefId] at h
      by_cases hs : s = ""
      · rw [if_pos hs] at h; exact absurd h (by simp)
      · rw [if_neg hs] at h
        simp only at h
        cases hrel : matchRecipeRel (pyStripL s.data) with
        | some m =>
          rw [hrel] at h
          have h' : (some m : Option Nat) = some n := h
          obtain rfl : m = n := (Option.some.injEq _ _).mp h'
          obtain ⟨ds, tl, heq, h1, h2, h3, h4⟩ :=
            (matchPre_eq_some relPathChars _ m).mp hrel
          exact ⟨s, ds, tl, rfl, hs, Or.inl heq, h1, h2, h3, h4⟩
        | none =>
          rw [hrel] at h
          have h' : matchRecipeAbs (pyStripL s.data) = some n := h
          obtain ⟨ds, tl, heq, h1, h2, h3, h4⟩ :=
            (matchPre_eq_some absUrlChars _ n).mp h'
          exact ⟨s, ds, tl, rfl, hs, Or.inr heq, h1, h2, h3, h4⟩
  · rintro ⟨s, ds, tl, rfl, hs, heq | heq, h1, h2, h3, h4⟩
    · have hrel : matchRecipeRel (pyStripL s.data) = some n := by
        rw [matchRecipeRel, heq]
        exact (matchPre_eq_some _ _ _).mpr ⟨ds, tl, rfl, h1, h2, h3, h4⟩
      rw [hrefId, if_neg hs]
      simp only [hrel]
    · have habs : matchRecipeAbs (pyStripL s.data) = some n := by
        rw [matchRecipeAbs, heq]
        exact (matchPre_eq_some _ _ _).mpr ⟨ds, tl, rfl, h1, h2, h3, h4⟩
      have hrel : matchRecipeRel (pyStripL s.data) = none := by
        rw [matchRecipeRel, matchPre, heq, List.append_assoc, dropPre_rel_of_abs]
      rw [hrefId, if_neg hs]
      simp only [hrel, habs]

/-- Claim C7: for every document (given by its anchors' hrefs in document
order), `extract_recipe_ids_from_listing` returns a duplicate-free list of
ids ordered by first occurrence of the underlying matches; an anchor
contributes exactly when its trimmed href matches the site-relative or the
absolute recipe pattern with an optional `/`, `?`, `#` or further-path
suffix (`specAnchorMatch`); and the concrete four-anchor example yields
exactly `[123, 456]`. -/
theorem claim_C7_theorem :
    (∀ anchors : List (Option String),
      (extract_recipe_ids_from_listing anchors).Nodup ∧
      (∀ x, x ∈ extract_recipe_ids_from_listing anchors ↔ x ∈ rawListingIds anchors) ∧
      (extract_recipe_ids_from_listing anchors).Pairwise
        (fun a b =>
          (rawListingIds anchors).indexOf a < (rawListingIds anchors).indexOf b) ∧
      (∀ href n, hrefId href = some n ↔ specAnchorMatch href n)) ∧
    extract_recipe_ids_from_listing
      [some "/vn/cong-thuc/123", some "https://cookpad.com/vn/cong-thuc/456?ref=x",
       some "/vn/cong-thuc/123", some "/other/path"] = [123, 456] := by
  constructor
  · intro anchors
    refine ⟨nodup_dedupFirstAux _ _, ?_, pairwise_dedupFirstAux _ _, hrefId_eq_some⟩
    intro x
    rw [extract_recipe_ids_from_listing, mem_dedupFirstAux]
    simp
  · decide

/-- Witness for claim C7 at the concrete example document: the result is
duplicate-free and contains 456. -/
theorem claim_C7_witness :
    (extract_recipe_ids_from_listing
      [some "/vn/cong-thuc/123", some "https://cookpad.com/vn/cong-thuc/456?ref=x",
       some "/vn/cong-thuc/123", some "/other/path"]).Nodup ∧
    456 ∈ extract_recipe_ids_from_listing
      [some "/vn/cong-thuc/123", some "https://cookpad.com/vn/cong-thuc/456?ref=x",
       some "/vn/cong-thuc/123", some "/other/path"] := by
  refine ⟨(claim_C7_theorem.1 _).1, ?_⟩
  rw [(claim_C7_theorem.1 _).2.1]
  decide

/-! Configuration (`config.py`) and the harvester loops (`harvest.py`). -/

/-- Strip trailing `/` characters (Python `str.rstrip("/")`). -/
def rstripSlash (s : String) : String :=
  String.mk ((s.data.reverse.dropWhile (· = '/')).reverse)

/-- Parse a non-empty all-digit character run as a number. -/
def parseDigits (cs : List Char) : Option Nat :=
  if cs = [] then none
  else if cs.all isDig then some (digitsVal cs) else none

/-- Python `int(s)` on a string: optional surrounding whitespace, optional
sign, decimal digits; anything else raises `ValueError` (`none` here;
underscore digit separators are not modelled). -/
def pyIntOfString (s : String) : Option Int :=
  match pyStripL s.data with
  | '-' :: rest => (parseDigits rest).map (fun n => -(n : Int))
  | '+' :: rest => (parseDigits rest).map (fun n => (n : Int))
  | t => (parseDigits t).map (fun n => (n : Int))

/-- Default browser user-agent string from `config.Settings`. -/
def defaultUserAgent : String :=
  "Mozilla/5.0 (Macintosh; Intel Mac OS X 10_15_7) AppleWebKit/537.36 (KHTML, like Gecko) Chrome/120.0.0.0 Safari/537.36"

/-- Embedding of `config.Settings`.  Note the configuration surface: there
is no zero-new-pages stop-threshold field. -/
structure Settings where
  supabase_url : String
  supabase_service_role_key : String
  source : String
  locale : String
  cutoff_days : Int
  max_pages_per_keyword : Int
  user_agent : String
deriving DecidableEq

/-- Embedding of `config.load_settings` over an environment map; `Except`
models the `RuntimeError` for missing credentials and the `ValueError` of
`int()` on a malformed numeric variable. -/
def load_settings (env : String → Option String) : Except String Settings :=
  let url := rstripSlash (pyStrip ((env "SUPABASE_URL").getD ""))
  let key := pyStrip ((env "SUPABASE_SERVICE_ROLE_KEY").getD "")
  if url = "" ∨ key = "" then
    .error "Missing env: SUPABASE_URL and/or SUPABASE_SERVICE_ROLE_KEY"
  else
    match pyIntOfString ((env "CUTOFF_DAYS").getD "30"),
        pyIntOfString ((env "MAX_PAGES_PER_KEYWORD").getD "30") with
    | some cd, some mp =>
      .ok ⟨url, key, pyStrip ((env "SOURCE").getD "cookpad"),
        pyStrip ((env "LOCALE").getD "vn"), cd, mp, defaultUserAgent⟩
    | _, _ => .error "ValueError"

/-- A fetched listing page: `truthy` is the Python truthiness of the html
string returned by the fetch helper (false exactly for the empty string),
and `anchors` is the anchor hrefs the HTML parser finds in it. -/
structure PageHtml where
  truthy : Bool
  anchors : List (Option String)

/-- Stop outcome of one per-keyword harvest run. -/
inductive HarvestStop where
  | fetch_failed (page : Nat)
  | empty_page (page : Nat)
  | loop_signature (page : Nat)
  | no_new_jobs_5_pages (page : Nat)
  | reached_max_pages
deriving DecidableEq

/-- Embedding of the page loop of the sequential harvest path
(`harvest.main`, sync branch): `fetch` is the listing fetch (already
including its own retries; `none` = fetch failed), `enq` the
`enqueue_crawl_jobs` backend oracle returning the inserted count.  The
fuel argument is the number of pages left in `range(1, max_pages + 1)`. -/
def harvestSeqAux (fetch : Nat → Option PageHtml) (enq : Nat → List Nat → Nat) :
    Nat → Nat → Option String → Nat → HarvestStop
  | _, 0, _, _ => .reached_max_pages
  | page, fuel + 1, prevSig, czn =>
    match fetch page with
    | none => .fetch_failed page
    | some h =>
      if h.truthy = false then .fetch_failed page
      else
        let ids := extract_recipe_ids_from_listing h.anchors
        if ids = [] then .empty_page page
        else
          let sig := signature_of_ids ids
          if prevSig = some sig then .loop_signature page
          else
            let czn' := if enq page ids = 0 then czn + 1 else 0
            if 5 ≤ czn' then .no_new_jobs_5_pages page
            else harvestSeqAux fetch enq (page + 1) fuel (some sig) czn'

/-- Sequential per-keyword harvest over pages 1 .. maxPages. -/
def harvestSeq (fetch : Nat → Option PageHtml) (enq : Nat → List Nat → Nat)
    (maxPages : Nat) : HarvestStop :=
  harvestSeqAux fetch enq 1 maxPages none 0

/-- Inner loop of `harvest._harvest_keyword_async`: apply one batch's
fetched pages in page order; `Sum.inl` is an early stop, `Sum.inr` the
carried (previous-signature, zero-new counter) state. -/
def processBatch (fetch : Nat → Option PageHtml) (enq : Nat → List Nat → Nat) :
    List Nat → Option String → Nat → HarvestStop ⊕ (Option String × Nat)
  | [], prevSig, czn => Sum.inr (prevSig, czn)
  | p :: rest, prevSig, czn =>
    match fetch p with
    | none => Sum.inl (.fetch_failed p)
    | some h =>
      if h.truthy = false then Sum.inl (.fetch_failed p)
      else
        let ids := extract_recipe_ids_from_listing h.anchors
        if ids = [] then Sum.inl (.empty_page p)
        else
          let sig := signature_of_ids ids
          if prevSig = some sig then Sum.inl (.loop_signature p)
          else
            let czn' := if enq p ids = 0 then czn + 1 else 0
            if 5 ≤ czn' then Sum.inl (.no_new_jobs_5_pages p)
            else processBatch fetch enq rest (some sig) czn'

/-- Outer `while page <= max_pages` loop of `harvest._harvest_keyword_async`;
the fuel bounds the number of batches (any fuel above `maxPages` is
unreachable with a positive batch size). -/
def harvestBatchAux (fetch : Nat → Option PageHtml) (enq : Nat → List Nat → Nat)
    (batchSize maxPages : Nat) : Nat → Nat → Option String → Nat → HarvestStop
  | _, 0, _, _ => .reached_max_pages
  | page, fuel + 1, prevSig, czn =>
    if page ≤ maxPages then
      let batchPages := List.range' page (min (page + batchSize) (maxPages + 1) - page)
      match processBatch fetch enq batchPages prevSig czn with
      | Sum.inl r => r
      | Sum.inr (sig', czn') =>
        harvestBatchAux fetch enq batchSize maxPages (page + batchSize) fuel sig' czn'
    else .reached_max_pages

/-- Batched-concurrent per-keyword harvest (`harvest._harvest_keyword_async`),
with the caller's `max(1, batch_size)` guard. -/
def harvestBatch (fetch : Nat → Option PageHtml) (enq : Nat → List Nat → Nat)
    (batchSize maxPages : Nat) : HarvestStop :=
  harvestBatchAux fetch enq (max 1 batchSize) maxPages 1 (maxPages + 1) none 0

/-- Claim C1: in both the sequential and the batched harvest path, a
successfully fetched page whose extracted id list is empty stops the
keyword with `empty_page`, for every carried state — in particular for any
previous-page signature, including one equal to the empty page's own
signature, since the empty-ids test is evaluated before any signature
comparison. -/
theorem claim_C1_theorem :
    (∀ (fetch : Nat → Option PageHtml) (enq : Nat → List Nat → Nat)
        (page fuel : Nat) (prevSig : Option String) (czn : Nat) (h : PageHtml),
      fetch page = some h → h.truthy = true →
      extract_recipe_ids_from_listing h.anchors = [] →
      harvestSeqAux fetch enq page (fuel + 1) prevSig czn = .empty_page page) ∧
    (∀ (fetch : Nat → Option PageHtml) (enq : Nat → List Nat → Nat)
        (rest : List Nat) (prevSig : Option String) (czn p : Nat) (h : PageHtml),
      fetch p = some h → h.truthy = true →
      extract_recipe_ids_from_listing h.anchors = [] →
      processBatch fetch enq (p :: rest) prevSig czn = Sum.inl (.empty_page p)) := by
  constructor
  · intro fetch enq page fuel prevSig czn h hf ht hids
    rw [harvestSeqAux, hf]
    simp [ht, hids]
  · intro fetch enq rest prevSig czn p h hf ht hids
    rw [processBatch, hf]
    simp [ht, hids]

/-- Witness for claim C1 at a concrete state: an empty page stops with
`empty_page` in both paths even though the carried previous signature
already equals the signature of the empty id sequence. -/
theorem claim_C1_witness :
    harvestSeqAux (fun _ => some ⟨true, []⟩) (fun _ _ => 0) 3 1
      (some (signature_of_ids [])) 7 = .empty_page 3 ∧
    processBatch (fun _ => some ⟨true, []⟩) (fun _ _ => 0) [3, 4]
      (some (signature_of_ids [])) 7 = Sum.inl (.empty_page 3) :=
  ⟨claim_C1_theorem.1 _ _ 3 0 (some (signature_of_ids [])) 7 ⟨true, []⟩ rfl rfl rfl,
   claim_C1_theorem.2 _ _ [4] (some (signature_of_ids [])) 7 3 ⟨true, []⟩ rfl rfl rfl⟩

/-- Listing oracle for the zero-new-pages analysis: every page fetches
successfully and shows exactly one fresh recipe anchor (the page number
itself as the id), so consecutive pages never repeat a signature. -/
def onePerPage (p : Nat) : Option PageHtml :=
  some ⟨true, [some (String.mk (relPathChars ++ decRepr p))]⟩

/-- Enqueue oracle reporting zero newly inserted rows for every page. -/
def zeroInserted : Nat → List Nat → Nat := fun _ _ => 0

/-- Claim C2 counterexample: with every page reporting zero new jobs, both
harvest paths stop with `no_new_jobs_5_pages` at page 5 under a page
budget of 10, and a budget of 4 runs to `reached_max_pages` — the
threshold is the constant 5 baked into `harvestSeqAux`/`processBatch`
(neither the harvest entry points nor `Settings`, which has no threshold
field, provide any way to change it), so it is not a configuration
setting. -/
theorem claim_C2_counterexample :
    harvestSeq onePerPage zeroInserted 10 = .no_new_jobs_5_pages 5 ∧
    harvestBatch onePerPage zeroInserted 3 10 = .no_new_jobs_5_pages 5 ∧
    harvestSeq onePerPage zeroInserted 4 = .reached_max_pages := by
  refine ⟨by decide, by decide, by decide⟩

/-- Claim C2 (amended): the consecutive zero-new-pages stop threshold is
hard-coded to 5 in both the sequential and the batched harvest path: under
any page budget of at least 5 (respectively at least 7 so the batched loop
reaches page 5), five consecutive zero-insert pages stop the keyword with
`no_new_jobs_5_pages` at page 5, independently of every configurable
input, while a budget of 4 never triggers it. -/
theorem claim_C2_theorem :
    (∀ m : Nat, harvestSeq onePerPage zeroInserted (m + 5) = .no_new_jobs_5_pages 5) ∧
    (∀ m : Nat, harvestBatch onePerPage zeroInserted 3 (m + 7) = .no_new_jobs_5_pages 5) ∧
    harvestSeq onePerPage zeroInserted 4 = .reached_max_pages := by
  refine ⟨fun m => rfl, fun m => rfl, by decide⟩

/-- Witness for claim C2 at concrete page budgets. -/
theorem claim_C2_witness :
    harvestSeq onePerPage zeroInserted 9 = .no_new_jobs_5_pages 5 ∧
    harvestBatch onePerPage zeroInserted 3 11 = .no_new_jobs_5_pages 5 :=
  ⟨claim_C2_theorem.1 4, claim_C2_theorem.2.1 4⟩

/-! Remote client (`supabase_rest.SupabaseRest`).  The HTTP transport is an
oracle mapping the attempt number to its outcome: `none` models a
`requests.RequestException`, `some r` a received response. -/

/-- An HTTP response as seen by the retry wrapper. -/
structure HttpResponse where
  status : Nat
  body : String
deriving DecidableEq

/-- Result of `_request_with_retry`: a returned response, or the
`RuntimeError` raised after exhausting all attempts on transport errors. -/
inductive ReqOutcome where
  | ok (r : HttpResponse)
  | transportError
deriving DecidableEq

/-- Backoff before the retry following attempt `i`
(`backoffs_s[min(attempt - 1, len(backoffs_s) - 1)]`, in whole seconds). -/
def backoffAt (attempt : Nat) : Nat :=
  [1, 3, 7].getD (min (attempt - 1) 2) 0

/-- The attempt loop of `SupabaseRest._request_with_retry`: `i` is the
current attempt number, the second argument the number of attempts still
allowed after this one, and the trace accumulates the backoff sleeps. -/
def requestRetryGo (attempt : Nat → Option HttpResponse) :
    Nat → Nat → List Nat → ReqOutcome × List Nat
  | i, 0, sleeps =>
    match attempt i with
    | some r => (.ok r, sleeps)
    | none => (.transportError, sleeps)
  | i, rem + 1, sleeps =>
    match attempt i with
    | some r =>
      if r.status < 500 ∧ r.status ≠ 429 then (.ok r, sleeps)
      else requestRetryGo attempt (i + 1) rem (sleeps ++ [backoffAt i])
    | none => requestRetryGo attempt (i + 1) rem (sleeps ++ [backoffAt i])

/-- Embedding of `SupabaseRest._request_with_retry` (callers always use the
default of 3 attempts). -/
def requestWithRetry (attempt : Nat → Option HttpResponse)
    (retryAttempts : Nat) : ReqOutcome × List Nat :=
  requestRetryGo attempt 1 (retryAttempts - 1) []

/-- A hard failure surfaced by a client operation: the `RuntimeError`
carrying the final status and response body, or the transport-exhaustion
`RuntimeError`. -/
inductive SbError where
  | http (status : Nat) (body : String)
  | transport
deriving DecidableEq

/-- Embedding of `SupabaseRest.rpc`: raise on any final status `≥ 400`,
map an empty or `"null"` body to no result, otherwise hand the body to the
(external) JSON decoder. -/
def sbRpc (attempt : Nat → Option HttpResponse) : Except SbError (Option String) :=
  match requestWithRetry attempt 3 with
  | (.transportError, _) => .error .transport
  | (.ok r, _) =>
    if 400 ≤ r.status then .error (.http r.status r.body)
    else if r.body = "" ∨ pyStrip r.body = "null" ∨ pyStrip r.body = "" then .ok none
    else .ok (some r.body)

/-- Embedding of `SupabaseRest.select_one`: raise on any final status
`≥ 400`, otherwise return the body (extracting the first decoded row, or
no row, is external JSON handling). -/
def sbSelectOne (attempt : Nat → Option HttpResponse) : Except SbError String :=
  match requestWithRetry attempt 3 with
  | (.transportError, _) => .error .transport
  | (.ok r, _) =>
    if 400 ≤ r.status then .error (.http r.status r.body) else .ok r.body

/-- Embedding of `SupabaseRest.upsert`: side effect only, raising on any
final status `≥ 400`. -/
def sbUpsert (attempt : Nat → Option HttpResponse) : Except SbError Unit :=
  match requestWithRetry attempt 3 with
  | (.transportError, _) => .error .transport
  | (.ok r, _) =>
    if 400 ≤ r.status then .error (.http r.status r.body) else .ok ()

/-- Embedding of `SupabaseRest.insert`: empty row lists short-circuit
before any request is made. -/
def sbInsert (rows : List String) (attempt : Nat → Option HttpResponse) :
    Except SbError Unit :=
  if rows = [] then .ok ()
  else
    match requestWithRetry attempt 3 with
    | (.transportError, _) => .error .transport
    | (.ok r, _) =>
      if 400 ≤ r.status then .error (.http r.status r.body) else .ok ()

/-- Embedding of `SupabaseRest.delete_where`: side effect only, raising on
any final status `≥ 400`. -/
def sbDeleteWhere (attempt : Nat → Option HttpResponse) : Except SbError Unit :=
  match requestWithRetry attempt 3 with
  | (.transportError, _) => .error .transport
  | (.ok r, _) =>
    if 400 ≤ r.status then .error (.http r.status r.body) else .ok ()

/-- An attempt outcome that triggers a retry: a transport exception, a
`429`, or any `5xx` status. -/
def retryableOutcome : Option HttpResponse → Bool
  | none => true
  | some r => 500 ≤ r.status || r.status = 429

theorem requestRetryGo_step_retryable (att : Nat → Option HttpResponse)
    (i rem : Nat) (s : List Nat) (h : retryableOutcome (att i) = true) :
    requestRetryGo att i (rem + 1) s = requestRetryGo att (i + 1) rem (s ++ [backoffAt i]) := by
  cases hatt : att i with
  | none => rw [requestRetryGo, hatt]
  | some r =>
    rw [requestRetryGo, hatt]
    have hno : ¬(r.status < 500 ∧ r.status ≠ 429) := by
      rw [hatt] at h
      simp only [retryableOutcome, Bool.or_eq_true, decide_eq_true_eq] at h
      rintro ⟨hlt, hne⟩
      rcases h with h | h
      · omega
      · exact hne h
    dsimp only
    rw [if_neg hno]

theorem requestRetryGo_step_ok (att : Nat → Option HttpResponse)
    (i rem : Nat) (s : List Nat) (r : HttpResponse) (hatt : att i = some r)
    (h1 : r.status < 500) (h2 : r.status ≠ 429) :
    requestRetryGo att i (rem + 1) s = (.ok r, s) := by
  rw [requestRetryGo, hatt]
  dsimp only
  rw [if_pos ⟨h1, h2⟩]

theorem requestRetryGo_agree :
    ∀ (rem i : Nat) (s : List Nat) (att att' : Nat → Option HttpResponse),
      (∀ j, i ≤ j → j ≤ i + rem → att j = att' j) →
      requestRetryGo att i rem s = requestRetryGo att' i rem s := by
  intro rem
  induction rem with
  | zero =>
    intro i s att att' hag
    have h := hag i (Nat.le_refl i) (Nat.le_add_right i 0)
    rw [requestRetryGo, requestRetryGo, h]
  | succ rem ih =>
    intro i s att att' hag
    have h := hag i (Nat.le_refl i) (by omega)
    rw [requestRetryGo, requestRetryGo, h]
    cases att' i with
    | none => exact ih (i + 1) _ att att' (fun j h1 h2 => hag j (by omega) (by omega))
    | some r =>
      dsimp only
      by_cases hacc : r.status < 500 ∧ r.status ≠ 429
      · rw [if_pos hacc, if_pos hacc]
      · rw [if_neg hacc, if_neg hacc]
        exact ih (i + 1) _ att att' (fun j h1 h2 => hag j (by omega) (by omega))

/-- Claim C3: every client operation goes through the shared retry wrapper
with 3 attempts and the fixed 1s/3s/7s backoff schedule, truncated by the
attempt budget: an acceptable response on attempt 1, 2 or 3 is returned
after sleeps `[]`, `[1]`, `[1, 3]` respectively; after two retryable
outcomes the third attempt's result is final (response returned, or the
transport error raised); the result never consults an attempt beyond the
third; and a 4xx response other than 429 on the first attempt is returned
without any retry and surfaced by each of the five operations
(call-procedure, read-one, upsert, insert, delete-where) as a hard failure
carrying its status and body. -/
theorem claim_C3_theorem :
    (∀ (att : Nat → Option HttpResponse) (r : HttpResponse),
      att 1 = some r → r.status < 500 → r.status ≠ 429 →
      requestWithRetry att 3 = (.ok r, [])) ∧
    (∀ (att : Nat → Option HttpResponse) (r : HttpResponse),
      retryableOutcome (att 1) = true → att 2 = some r →
      r.status < 500 → r.status ≠ 429 →
      requestWithRetry att 3 = (.ok r, [1])) ∧
    (∀ (att : Nat → Option HttpResponse) (r : HttpResponse),
      retryableOutcome (att 1) = true → retryableOutcome (att 2) = true →
      att 3 = some r →
      requestWithRetry att 3 = (.ok r, [1, 3])) ∧
    (∀ att : Nat → Option HttpResponse,
      retryableOutcome (att 1) = true → retryableOutcome (att 2) = true →
      att 3 = none →
      requestWithRetry att 3 = (.transportError, [1, 3])) ∧
    (∀ att att' : Nat → Option HttpResponse,
      (∀ j, 1 ≤ j → j ≤ 3 → att j = att' j) →
      requestWithRetry att 3 = requestWithRetry att' 3) ∧
    (∀ (att : Nat → Option HttpResponse) (r : HttpResponse),
      att 1 = some r → 400 ≤ r.status → r.status < 500 → r.status ≠ 429 →
      requestWithRetry att 3 = (.ok r, []) ∧
      sbRpc att = .error (.http r.status r.body) ∧
      sbSelectOne att = .error (.http r.status r.body) ∧
      sbUpsert att = .error (.http r.status r.body) ∧
      sbInsert ["row"] att = .error (.http r.status r.body) ∧
      sbDeleteWhere att = .error (.http r.status r.body)) := by
  have hok1 : ∀ (att : Nat → Option HttpResponse) (r : HttpResponse),
      att 1 = some r → r.status < 500 → r.status ≠ 429 →
      requestWithRetry att 3 = (.ok r, []) := by
    intro att r hatt h1 h2
    rw [requestWithRetry]
    exact requestRetryGo_step_ok att 1 1 [] r hatt h1 h2
  refine ⟨hok1, ?_, ?_, ?_, ?_, ?_⟩
  · intro att r hr1 hatt h1 h2
    rw [requestWithRetry, requestRetryGo_step_retryable att 1 1 [] hr1]
    exact requestRetryGo_step_ok att 2 0 _ r hatt h1 h2
  · intro att r hr1 hr2 hatt
    rw [requestWithRetry, requestRetryGo_step_retryable att 1 1 [] hr1,
        requestRetryGo_step_retryable att 2 0 _ hr2, requestRetryGo, hatt]
    rfl
  · intro att hr1 hr2 hatt
    rw [requestWithRetry, requestRetryGo_step_retryable att 1 1 [] hr1,
        requestRetryGo_step_retryable att 2 0 _ hr2, requestRetryGo, hatt]
    rfl
  · intro att att' hag
    rw [requestWithRetry, requestWithRetry]
    exact requestRetryGo_agree 2 1 [] att att' (fun j h1 h2 => hag j h1 (by omega))
  · intro att r hatt h4 h1 h2
    have hreq := hok1 att r hatt h1 h2
    refine ⟨hreq, ?_, ?_, ?_, ?_, ?_⟩
    · rw [sbRpc, hreq]
      dsimp only
      rw [if_pos h4]
    · rw [sbSelectOne, hreq]
      dsimp only
      rw [if_pos h4]
    · rw [sbUpsert, hreq]
      dsimp only
      rw [if_pos h4]
    · rw [sbInsert, if_neg (by simp : ¬(["row"] = ([] : List String))), hreq]
      dsimp only
      rw [if_pos h4]
    · rw [sbDeleteWhere, hreq]
      dsimp only
      rw [if_pos h4]

/-- Witness for claim C3 at concrete transports: a 503 then a 200 succeeds
with one retry and a single 1s sleep; a first-attempt 404 is surfaced by
the rpc path as a hard failure carrying status and body with no retry. -/
theorem claim_C3_witness :
    requestWithRetry
      (fun i => if i = 1 then some ⟨503, "overloaded"⟩ else some ⟨200, "okbody"⟩) 3 =
      (.ok ⟨200, "okbody"⟩, [1]) ∧
    requestWithRetry (fun _ => some ⟨404, "not found"⟩) 3 =
      (.ok ⟨404, "not found"⟩, []) ∧
    sbRpc (fun _ => some ⟨404, "not found"⟩) = .error (.http 404 "not found") :=
  ⟨claim_C3_theorem.2.1 _ ⟨200, "okbody"⟩ (by decide) rfl (by decide) (by decide),
   (claim_C3_theorem.2.2.2.2.2 _ ⟨404, "not found"⟩ rfl (by decide) (by decide)
      (by decide)).1,
   (claim_C3_theorem.2.2.2.2.2 _ ⟨404, "not found"⟩ rfl (by decide) (by decide)
      (by decide)).2.1⟩

/-! JSON values and Python dynamic-semantics helpers.  `JVal` is the
result of the external `json.loads`: JSON numbers are modelled as
integers (no claim exercises fractional values). -/

/-- A decoded JSON value. -/
inductive JVal where
  | null
  | bool (b : Bool)
  | num (n : Int)
  | str (s : String)
  | arr (xs : List JVal)
  | obj (fields : List (String × JVal))

/-- Python truthiness of a decoded JSON value. -/
def pyTruthy : JVal → Bool
  | .null => false
  | .bool b => b
  | .num n => n != 0
  | .str s => s != ""
  | .arr xs => !xs.isEmpty
  | .obj fs => !fs.isEmpty

/-- Python `v == s` for a JSON value against a string literal (equality
between a string and a non-string value is `False`). -/
def isStrEq (v : JVal) (s : String) : Bool :=
  match v with
  | .str t => t = s
  | _ => false

/-- Python `dict.get(k)` over a decoded JSON object's fields (`none` for a
missing key; JSON objects with duplicate keys are not modelled). -/
def jGet (fields : List (String × JVal)) (k : String) : Option JVal :=
  match fields with
  | [] => none
  | (k', v) :: rest => if k' = k then some v else jGet rest k

/-- Python `dict.get(k)` returning `None` (here `JVal.null`) when missing. -/
def jGetD (fields : List (String × JVal)) (k : String) : JVal :=
  (jGet fields k).getD .null

/-- Python `a or b` over decoded JSON values. -/
def pyOr (a b : JVal) : JVal :=
  if pyTruthy a then a else b

/-- Python `int(v)` on a decoded JSON value, `none` when it raises
(`ValueError`/`TypeError`): numbers and booleans convert, strings parse as
optionally signed decimals, everything else raises. -/
def pyIntOpt : JVal → Option Int
  | .num n => some n
  | .bool b => some (if b then 1 else 0)
  | .str s => pyIntOfString s
  | _ => none

/-- Substring test on character lists. -/
def isSubSeg (needle hay : List Char) : Bool :=
  hay.tails.any (fun t => needle.isPrefixOf t)

/-- Python `needle in hay` for a string needle against a decoded JSON
value: substring test on strings, membership on arrays, key membership on
objects, and a `TypeError` (`none`) on anything else. -/
def pyInStr (needle : String) : JVal → Option Bool
  | .str s => some (isSubSeg needle.data s.data)
  | .arr xs => some (xs.any (fun x => isStrEq x needle))
  | .obj fs => some (fs.any (fun kv => kv.1 = needle))
  | _ => none

/-- Escape one character for Python `repr` of a string with quote
character `q` (escaping beyond backslash, the quote, and common control
characters is not modelled). -/
def pyEscapeChar (q : Char) (c : Char) : List Char :=
  if c = '\\' then ['\\', '\\']
  else if c = q then ['\\', q]
  else if c = '\n' then ['\\', 'n']
  else if c = '\r' then ['\\', 'r']
  else if c = '\t' then ['\\', 't']
  else [c]

/-- Python `repr` of a string: single quotes unless the text contains a
single quote but no double quote. -/
def pyReprStr (s : String) : String :=
  let q : Char := if s.data.contains '\'' && !(s.data.contains '"') then '"' else '\''
  String.mk (q :: s.data.flatMap (pyEscapeChar q) ++ [q])

mutual

/-- Python `repr` of a decoded JSON value. -/
def pyRepr : JVal → String
  | .null => "None"
  | .bool true => "True"
  | .bool false => "False"
  | .num n => intStr n
  | .str s => pyReprStr s
  | .arr xs => "[" ++ pyReprList xs ++ "]"
  | .obj fs => "\x7b" ++ pyReprFields fs ++ "\x7d"

/-- Comma-joined `repr` of list elements. -/
def pyReprList : List JVal → String
  | [] => ""
  | [x] => pyRepr x
  | x :: y :: rest => pyRepr x ++ ", " ++ pyReprList (y :: rest)

/-- Comma-joined `repr` of dict items. -/
def pyReprFields : List (String × JVal) → String
  | [] => ""
  | [(k, v)] => pyReprStr k ++ ": " ++ pyRepr v
  | (k, v) :: y :: rest => pyReprStr k ++ ": " ++ pyRepr v ++ ", " ++ pyReprFields (y :: rest)

end

/-- Python `str` of a decoded JSON value (as interpolated by f-strings). -/
def pyStr : JVal → String
  | .str s => s
  | v => pyRepr v

/-- Embedding of `detail_worker._short_repr` with its default limit of 200. -/
def _short_repr (v : JVal) : String :=
  let s := pyRepr v
  if 200 < s.length then s.take 197 ++ "..." else s

/-- Embedding of `detail_worker._invalid_reason`: the pipe-joined
diagnostic reason string. -/
def _invalid_reason (code : String) (jobId recipeId requestedUrl : JVal)
    (parsedRecipeId : Option Nat) : String :=
  code ++ "|job_id=" ++ pyStr jobId ++ "|recipe_id=" ++ pyStr recipeId ++
    "|requested_url=" ++ _short_repr requestedUrl ++
    (match parsedRecipeId with
     | none => ""
     | some n => "|parsed_recipe_id=" ++ natStr n)

/-- A Python `datetime.date`. -/
structure PyDate where
  year : Nat
  month : Nat
  day : Nat
deriving DecidableEq

/-- Python `date` comparison (calendar order = lexicographic). -/
def PyDate.lt (a b : PyDate) : Bool :=
  a.year < b.year ||
    (a.year = b.year && (a.month < b.month || (a.month = b.month && a.day < b.day)))

/-- A Python timezone-aware `datetime`; `.date()` is the `dateOf` field. -/
structure PyDateTime where
  dateOf : PyDate
  hour : Nat
  minute : Nat
  second : Nat
  offsetMinutes : Int
deriving DecidableEq

/-- Read `k` decimal digit characters as a number, returning the rest. -/
def parseNatFixed (cs : List Char) (k : Nat) : Option (Nat × List Char) :=
  let ds := cs.take k
  if ds.length = k ∧ ds.all isDig then some (digitsVal ds, cs.drop k) else none

/-- Parse `YYYY-MM-DD` with basic calendar bounds. -/
def parseIsoDate (cs : List Char) : Option (PyDate × List Char) :=
  match parseNatFixed cs 4 with
  | none => none
  | some (y, r1) =>
    match r1 with
    | '-' :: r2 =>
      match parseNatFixed r2 2 with
      | none => none
      | some (mo, r3) =>
        match r3 with
        | '-' :: r4 =>
          match parseNatFixed r4 2 with
          | none => none
          | some (d, r5) =>
            if 1 ≤ mo ∧ mo ≤ 12 ∧ 1 ≤ d ∧ d ≤ 31 then some (⟨y, mo, d⟩, r5) else none
        | _ => none
    | _ => none

/-- Parse `THH:MM[:SS]`. -/
def parseIsoTime (cs : List Char) : Option (Nat × Nat × Nat × List Char) :=
  match cs with
  | 'T' :: r1 =>
    match parseNatFixed r1 2 with
    | none => none
    | some (hh, r2) =>
      match r2 with
      | ':' :: r3 =>
        match parseNatFixed r3 2 with
        | none => none
        | some (mm, r4) =>
          if hh ≤ 23 ∧ mm ≤ 59 then
            match r4 with
            | ':' :: r5 =>
              match parseNatFixed r5 2 with
              | none => none
              | some (ss, r6) => if ss ≤ 59 then some (hh, mm, ss, r6) else none
            | _ => some (hh, mm, 0, r4)
          else none
      | _ => none
  | _ => none

/-- Parse a `+HH:MM` / `-HH:MM` UTC offset. -/
def parseIsoOffset (cs : List Char) : Option (Int × List Char) :=
  match cs with
  | c :: r1 =>
    if c = '+' ∨ c = '-' then
      match parseNatFixed r1 2 with
      | none => none
      | some (hh, r2) =>
        match r2 with
        | ':' :: r3 =>
          match parseNatFixed r3 2 with
          | none => none
          | some (mm, r4) =>
            let total : Int := (hh * 60 + mm : Nat)
            some ((if c = '-' then -total else total), r4)
        | _ => none
    else none
  | [] => none

/-- Embedding of `utils.parse_datetime_maybe`: lenient ISO parsing of bare
dates and timestamps, with a trailing `Z` rewritten to `+00:00` and a
missing offset defaulting to UTC; anything else yields `none` (fractional
seconds are not modelled). -/
def parse_datetime_maybe (value : Option String) : Option PyDateTime :=
  match value with
  | none => none
  | some s =>
    if s = "" then none
    else
      let v := pyStripL s.data
      let v2 := if v.getLast? = some 'Z' then v.dropLast ++ "+00:00".data else v
      match parseIsoDate v2 with
      | none => none
      | some (d, rest) =>
        if rest = [] then some ⟨d, 0, 0, 0, 0⟩
        else
          match parseIsoTime rest with
          | none => none
          | some (hh, mm, ss, rest2) =>
            if rest2 = [] then some ⟨d, hh, mm, ss, 0⟩
            else
              match parseIsoOffset rest2 with
              | none => none
              | some (off, rest3) =>
                if rest3 = [] then some ⟨d, hh, mm, ss, off⟩ else none

/-! Recipe markup parser (`jsonld_recipe.py`).  A document is modelled by
its `ld+json` script blocks after the external `json.loads`: `none` is a
block whose text is empty or raises `JSONDecodeError` (skipped by the
code), `some v` a decoded block. -/

/-- Embedding of `jsonld_recipe._as_list`. -/
def _as_list : JVal → List JVal
  | .null => []
  | .arr xs => xs
  | v => [v]

/-- The `@id` fallback of the dict case of `_first_url_from_image`. -/
def urlFromAtId (fs : List (String × JVal)) : Option String :=
  match jGet fs "@id" with
  | some (.str u) => if pyStrip u ≠ "" then some (pyStrip u) else none
  | _ => none

mutual

/-- Embedding of `jsonld_recipe._first_url_from_image`: unwrap string,
list and object image representations to the first usable URL. -/
def _first_url_from_image (img : JVal) : Option String :=
  if pyTruthy img = false then none
  else
    match img with
    | .str s => if pyStrip s = "" then none else some (pyStrip s)
    | .arr xs => firstUrlOfList xs
    | .obj fs =>
      match jGet fs "url" with
      | some (.str u) => if pyStrip u ≠ "" then some (pyStrip u) else urlFromAtId fs
      | _ => urlFromAtId fs
    | _ => none

/-- First usable URL among list members (a recursive result is never the
empty string, so Python's truthiness test on it is `isSome`). -/
def firstUrlOfList : List JVal → Option String
  | [] => none
  | x :: xs =>
    match _first_url_from_image x with
    | some u => some u
    | none => firstUrlOfList xs

end

/-- Classification step of `_extract_counts` for one statistic entry whose
type tag and count are both usable; `none` models the uncaught `TypeError`
of Python `in` on a non-container tag. -/
def countsClassify (bookmark like comment : Option Int) (itStr : JVal) (countInt : Int) :
    Option (Option Int × Option Int × Option Int) :=
  match pyInStr "BookmarkAction" itStr with
  | none => none
  | some true => some (some countInt, like, comment)
  | some false =>
    match pyInStr "LikeAction" itStr with
    | none => none
    | some true => some (bookmark, some countInt, comment)
    | some false =>
      match pyInStr "CommentAction" itStr with
      | none => none
      | some true => some (bookmark, like, some countInt)
      | some false => some (bookmark, like, comment)

/-- Loop of `_extract_counts` over the statistics list. -/
def countsGo : List JVal → (Option Int × Option Int × Option Int) →
    Option (Option Int × Option Int × Option Int)
  | [], acc => some acc
  | stat :: rest, acc =>
    match stat with
    | .obj fs =>
      let countInt : Option Int := pyIntOpt (jGetD fs "userInteractionCount")
      let itStr : JVal :=
        match jGetD fs "interactionType" with
        | .obj ifs => pyOr (jGetD ifs "@type") (jGetD ifs "name")
        | .str s => .str s
        | _ => .null
      if pyTruthy itStr = false then countsGo rest acc
      else
        match countInt with
        | none => countsGo rest acc
        | some ci =>
          match countsClassify acc.1 acc.2.1 acc.2.2 itStr ci with
          | none => none
          | some acc' => countsGo rest acc'
    | _ => countsGo rest acc

/-- Embedding of `jsonld_recipe._extract_counts`; the outer `none` is the
uncaught `TypeError` raised when a truthy non-container interaction-type
tag (e.g. a JSON number) is tested with `in`. -/
def _extract_counts (v : JVal) : Option (Option Int × Option Int × Option Int) :=
  countsGo (_as_list v) (none, none, none)

/-- Loop of `_extract_author`: first dict or string entry wins. -/
def authorLoop : List JVal → Option String × Option String
  | [] => (none, none)
  | a :: rest =>
    match a with
    | .obj fs =>
      ((match jGetD fs "name" with | .str s => some s | _ => none),
       (match pyOr (jGetD fs "url") (jGetD fs "@id") with | .str s => some s | _ => none))
    | .str s => (some s, none)
    | _ => authorLoop rest

/-- Embedding of `jsonld_recipe._extract_author`. -/
def _extract_author (v : JVal) : Option String × Option String :=
  authorLoop (_as_list v)

/-- Python `str.split(",")` (empty fragments preserved). -/
def splitCommaAux : List Char → List Char → List (List Char)
  | [], cur => [cur.reverse]
  | c :: rest, cur =>
    if c = ',' then cur.reverse :: splitCommaAux rest [] else splitCommaAux rest (c :: cur)

/-- Split a character list on commas. -/
def splitComma (cs : List Char) : List (List Char) :=
  splitCommaAux cs []

/-- Python `str.replace(";", ",")`. -/
def replaceSemi (cs : List Char) : List Char :=
  cs.map (fun c => if c = ';' then ',' else c)

/-- Embedding of `jsonld_recipe._extract_keywords`. -/
def _extract_keywords : JVal → Option String × List String
  | .null => (none, [])
  | .arr xs =>
    let cleaned := xs.filterMap fun k =>
      match k with
      | .str s => if pyStrip s ≠ "" then some (pyStrip s) else none
      | _ => none
    ((if cleaned = [] then none else some (String.intercalate ", " cleaned)), cleaned)
  | .str s =>
    let raw := pyStripL s.data
    let parts := ((splitComma (replaceSemi raw)).map pyStripL).filter (· ≠ [])
    ((if raw = [] then none else some (String.mk raw)), parts.map String.mk)
  | _ => (none, [])

/-- One step record (`{"text": ..., "image": ...}`). -/
structure StepRec where
  text : Option String
  image : Option String

/-- Loop of `_extract_instructions`. -/
def stepsLoop : List JVal → List StepRec
  | [] => []
  | item :: rest =>
    match item with
    | .str s =>
      if pyStrip s ≠ "" then ⟨some (pyStrip s), none⟩ :: stepsLoop rest
      else stepsLoop rest
    | .obj fs =>
      let text : Option String :=
        match pyOr (jGetD fs "text") (jGetD fs "name") with
        | .str s => some (pyStrip s)
        | _ => none
      let image := _first_url_from_image (jGetD fs "image")
      if ((match text with | some t => t != "" | none => false) || image.isSome) = true then
        ⟨text, image⟩ :: stepsLoop rest
      else stepsLoop rest
    | _ => stepsLoop rest

/-- Embedding of `jsonld_recipe._extract_instructions`. -/
def _extract_instructions (v : JVal) : List StepRec :=
  stepsLoop (_as_list v)

/-- One stored comment record. -/
structure CommentRec where
  author_name : Option String
  author_url : Option String
  url : Option String
  date_published : Option PyDateTime
  text : String
  text_hash : String

/-- Loop of `_extract_comments`: entries need a non-blank string `text`;
`text_hash` is the normalized hash of the raw text. -/
def commentsLoop : List JVal → List CommentRec
  | [] => []
  | c :: rest =>
    match c with
    | .obj fs =>
      match jGet fs "text" with
      | some (.str t) =>
        if pyStrip t = "" then commentsLoop rest
        else
          let au := _extract_author (jGetD fs "author")
          ⟨au.1, au.2,
           (match jGet fs "url" with | some (.str u) => some u | _ => none),
           parse_datetime_maybe
             (match jGet fs "datePublished" with | some (.str d) => some d | _ => none),
           pyStrip t, sha256_text t⟩ :: commentsLoop rest
      | _ => commentsLoop rest
    | _ => commentsLoop rest

/-- Embedding of `jsonld_recipe._extract_comments`. -/
def _extract_comments (v : JVal) : List CommentRec :=
  commentsLoop (_as_list v)

/-- Embedding of `jsonld_recipe.ParsedRecipe`. -/
structure ParsedRecipe where
  recipe_id : Nat
  url : String
  name : Option String
  description : Option String
  hero_image : Option String
  date_published : Option PyDateTime
  date_modified : Option PyDateTime
  cuisine : Option String
  author_name : Option String
  author_url : Option String
  keywords_raw : Option String
  keywords : List String
  ingredients : List String
  steps : List StepRec
  bookmark_count : Option Int
  like_count : Option Int
  comment_count : Option Int
  comments : List CommentRec

/-- Dict members of an `@graph` list. -/
def graphMembers (fs : List (String × JVal)) : List (List (String × JVal)) :=
  match jGet fs "@graph" with
  | some (.arr gs) => gs.filterMap fun g => match g with | .obj gfs => some gfs | _ => none
  | _ => []

/-- Candidate objects contributed by one decoded block: for each dict in
the (possibly singleton) list, its `@graph` dict members then itself. -/
def candidatesOfBlock (parsed : JVal) : List (List (String × JVal)) :=
  (_as_list parsed).foldl
    (fun acc obj =>
      match obj with
      | .obj fs => acc ++ graphMembers fs ++ [fs]
      | _ => acc)
    []

/-- All candidate objects of a document's blocks, skipping the malformed
(`none`) blocks. -/
def ldCandidates (blocks : List (Option JVal)) : List (List (String × JVal)) :=
  blocks.foldl
    (fun acc b =>
      match b with
      | none => acc
      | some parsed => acc ++ candidatesOfBlock parsed)
    []

/-- Declared-type test: `@type` equals `"Recipe"` or is a list containing it. -/
def hasRecipeType (fs : List (String × JVal)) : Bool :=
  let t := jGetD fs "@type"
  isStrEq t "Recipe" ||
    (match t with | .arr l => l.any (fun x => isStrEq x "Recipe") | _ => false)

/-- Cuisine extraction: trimmed string, or list joined with `", "`. -/
def cuisineOf (v : JVal) : Option String :=
  match v with
  | .str s => if pyStrip s = "" then none else some (pyStrip s)
  | .arr xs =>
    let parts := xs.filterMap fun c =>
      match c with
      | .str s => if pyStrip s ≠ "" then some (pyStrip s) else none
      | _ => none
    let j := String.intercalate ", " parts
    if j = "" then none else some j
  | _ => none

/-- A field value when it is a string, else absent. -/
def strField (fs : List (String × JVal)) (k : String) : Option String :=
  match jGet fs k with
  | some (.str s) => some s
  | _ => none

/-- Embedding of `jsonld_recipe.parse_jsonld_recipe`.  The outer `Option`
models an uncaught exception (raised only by `_extract_counts`, see
`countsClassify`); the inner `Option` is the documented absent result when
no candidate declares the Recipe type. -/
def parse_jsonld_recipe (blocks : List (Option JVal)) (requested_url : String)
    (recipe_id : Nat) : Option (Option ParsedRecipe) :=
  match (ldCandidates blocks).find? hasRecipeType with
  | none => some none
  | some fs =>
    match _extract_counts (jGetD fs "interactionStatistic") with
    | none => none
    | some counts =>
      let au := _extract_author (jGetD fs "author")
      let kw := _extract_keywords (jGetD fs "keywords")
      some (some
        ⟨recipe_id,
         (match strField fs "url" with | some u => u | none => requested_url),
         strField fs "name",
         strField fs "description",
         _first_url_from_image (jGetD fs "image"),
         parse_datetime_maybe (strField fs "datePublished"),
         parse_datetime_maybe (strField fs "dateModified"),
         cuisineOf (jGetD fs "recipeCuisine"),
         au.1, au.2, kw.1, kw.2,
         (_as_list (jGetD fs "recipeIngredient")).filterMap
           (fun i =>
             match i with
             | .str s => if pyStrip s ≠ "" then some (pyStrip s) else none
             | _ => none),
         _extract_instructions (jGetD fs "recipeInstructions"),
         counts.1, counts.2.1, counts.2.2,
         _extract_comments (jGetD fs "comment")⟩)

/-! Detail worker (`detail_worker.py`): one iteration of the claim loop as
a pure step function.  The transport is oracled: `fetch` maps the
requested URL to a `requests` outcome (`Except.error` = the exception's
class name), and a fetched page's `ld+json` blocks stand for its text.
`write_staging`'s internal remote writes are summarized by the
`.staging_write` action plus the `stagingExc` oracle (the class name of
any exception its `try` block catches, including `KeyError` on missing
job fields).  Backend marking RPCs are assumed to succeed; timing-only
sleeps after claim/failure are not traced except for the idle sleep. -/

/-- A `requests` response as consumed by the worker. -/
structure FetchResp where
  status : Nat
  url : String
  blocks : List (Option JVal)

/-- Externally visible actions of one worker iteration, in order. -/
inductive WorkerAction where
  | sleep_idle
  | http_fetch (url : String)
  | mark_invalid (reason : String) (httpStatus : Option Nat)
  | mark_failed (error : String) (httpStatus : Option Nat)
  | staging_write
  | update_keyword_feedback (keyword : JVal) (page : Int) (datePublished : PyDate)
  | promote_recipe_if_recent (recipeId : Nat) (cutoff : PyDate)
  | mark_done

/-- Exact suffix-free absolute-URL match: embedding of
`utils.RE_RECIPE_URL` applied by `_job_recipe_id_from_url`. -/
def matchExact (p cs : List Char) : Option Nat :=
  match dropPre p cs with
  | none => none
  | some rest => parseDigits rest

/-- Embedding of `detail_worker._job_recipe_id_from_url`. -/
def _job_recipe_id_from_url (url : Option String) : Option Nat :=
  match url with
  | none => none
  | some s =>
    if pyStrip s = "" then none
    else matchExact absUrlChars (pyStripL s.data)

/-- Fetch, parse, staging-write, freshness branch and terminal marking of
one claimed and validated job (`detail_worker.main`, after URL
validation). -/
def workerFetchStage (fields : List (String × JVal)) (s : String) (rid : Nat)
    (fetch : String → Except String FetchResp) (stagingExc : Option String)
    (cutoff : PyDate) : Option (List WorkerAction) :=
  match fetch s with
  | .error ename => some [.http_fetch s, .mark_failed ("request_error:" ++ ename) none]
  | .ok resp =>
    if resp.status = 301 ∨ resp.status = 302 then
      some [.http_fetch s, .mark_invalid "redirect" (some resp.status)]
    else if resp.url ≠ s then
      some [.http_fetch s, .mark_invalid "url_mismatch" (some resp.status)]
    else if resp.status = 404 ∨ resp.status = 410 then
      some [.http_fetch s, .mark_invalid "notfound" (some resp.status)]
    else if resp.status = 429 ∨ 500 ≤ resp.status then
      some [.http_fetch s, .mark_failed ("http_" ++ natStr resp.status) (some resp.status)]
    else if resp.status ≠ 200 then
      some [.http_fetch s, .mark_failed ("http_" ++ natStr resp.status) (some resp.status)]
    else
      match parse_jsonld_recipe resp.blocks s rid with
      | none => none
      | some none => some [.http_fetch s, .mark_invalid "no_recipe_jsonld" (some 200)]
      | some (some parsed) =>
        match stagingExc with
        | some ename =>
          some [.http_fetch s, .staging_write,
                .mark_failed ("staging_write:" ++ ename) (some 200)]
        | none =>
          match parsed.date_published with
          | some dt =>
            if PyDate.lt dt.dateOf cutoff then
              match jGet fields "keyword" with
              | none => none
              | some kv =>
                match jGet fields "page" with
                | none => none
                | some pv =>
                  match pyIntOpt pv with
                  | none => none
                  | some pg =>
                    some [.http_fetch s, .staging_write,
                          .update_keyword_feedback kv pg dt.dateOf, .mark_done]
            else
              some [.http_fetch s, .staging_write,
                    .promote_recipe_if_recent rid cutoff, .mark_done]
          | none =>
            some [.http_fetch s, .staging_write,
                  .promote_recipe_if_recent rid cutoff, .mark_done]

/-- URL validation of a claimed job with a truthy id (`detail_worker.main`
steps 2-3): non-string or blank `requested_url` is `missing_requested_url`;
a URL that does not parse under the exact pattern, or parses to an id
other than `int(job["recipe_id"])`, is `bad_requested_url` and is never
fetched.  An overall `none` is an uncaught exception (`KeyError` on a
missing `recipe_id` field or `int()` on an unconvertible one). -/
def workerValidate (fields : List (String × JVal)) (idv : JVal)
    (fetch : String → Except String FetchResp) (stagingExc : Option String)
    (cutoff : PyDate) : Option (List WorkerAction) :=
  let requestedUrl := jGetD fields "requested_url"
  match requestedUrl with
  | .str s =>
    if pyStrip s = "" then
      some [.mark_invalid
        (_invalid_reason "missing_requested_url" idv (jGetD fields "recipe_id")
          requestedUrl none) none]
    else
      match _job_recipe_id_from_url (some s) with
      | none =>
        some [.mark_invalid
          (_invalid_reason "bad_requested_url" idv (jGetD fields "recipe_id")
            requestedUrl none) none]
      | some rid =>
        match jGet fields "recipe_id" with
        | none => none
        | some rv =>
          match pyIntOpt rv with
          | none => none
          | some k =>
            if k ≠ (rid : Int) then
              some [.mark_invalid
                (_invalid_reason "bad_requested_url" idv (jGetD fields "recipe_id")
                  requestedUrl (some rid)) none]
            else workerFetchStage fields s rid fetch stagingExc cutoff
  | _ =>
    some [.mark_invalid
      (_invalid_reason "missing_requested_url" idv (jGetD fields "recipe_id")
        requestedUrl none) none]

/-- Claimed-object handling (`detail_worker.main` step 1, defensive id
check): a dict whose `id` is missing or falsy is treated as idle. -/
def workerObjStep (fields : List (String × JVal))
    (fetch : String → Except String FetchResp) (stagingExc : Option String)
    (cutoff : PyDate) : Option (List WorkerAction) :=
  match jGet fields "id" with
  | none => some [.sleep_idle]
  | some idv =>
    if pyTruthy idv = false then some [.sleep_idle]
    else workerValidate fields idv fetch stagingExc cutoff

/-- Handling of the (unwrapped) claim result: falsy is idle; a truthy
non-dict crashes on `job["id"]` (`none`). -/
def workerJobStep (j : JVal) (fetch : String → Except String FetchResp)
    (stagingExc : Option String) (cutoff : PyDate) : Option (List WorkerAction) :=
  if pyTruthy j = false then some [.sleep_idle]
  else
    match j with
    | .obj fields => workerObjStep fields fetch stagingExc cutoff
    | _ => none

/-- One iteration of the detail-worker claim loop (`detail_worker.main`):
`claimResult` is the decoded `claim_next_crawl_job` result
(`job = job[0] if job else None` unwraps list results). -/
def workerStep (claimResult : JVal) (fetch : String → Except String FetchResp)
    (stagingExc : Option String) (cutoff : PyDate) : Option (List WorkerAction) :=
  match (match claimResult with | .arr xs => xs.head? | v => some v) with
  | none => some [.sleep_idle]
  | some j => workerJobStep j fetch stagingExc cutoff

/-- An interaction-statistic entry whose type tag is a JSON number: a
shape `json.loads` can produce from real page markup. -/
def numTagStat : JVal :=
  .obj [("interactionType", .obj [("@type", .num 5)]),
        ("userInteractionCount", .num 3)]

/-- A linked-data block declaring the Recipe type whose statistics list
contains `numTagStat`. -/
def numTagBlock : JVal :=
  .obj [("@type", .str "Recipe"), ("interactionStatistic", numTagStat)]

/-- Claim C6 evaluation at the failing input: a Recipe block whose
interaction-type tag is a truthy JSON number makes `_extract_counts`
evaluate Python `"BookmarkAction" in 5`, an uncaught `TypeError`
(`none`), so `parse_jsonld_recipe` raises instead of degrading the field
— and a detail worker that fetches such a page crashes after a successful
200 fetch.  With the tag spelled as a string the same entry degrades as
the claim describes. -/
theorem claim_C6_theorem :
    parse_jsonld_recipe [some numTagBlock] "https://cookpad.com/vn/cong-thuc/77" 77 =
      none ∧
    _extract_counts numTagStat = none ∧
    _extract_counts
      (.obj [("interactionType", .obj [("@type", .str "CookpadBookmarkAction")]),
             ("userInteractionCount", .num 3)]) = some (some 3, none, none) ∧
    workerStep
      (.obj [("id", .num 9),
             ("requested_url", .str "https://cookpad.com/vn/cong-thuc/77"),
             ("recipe_id", .num 77)])
      (fun u => .ok ⟨200, u, [some numTagBlock]⟩) none ⟨2024, 1, 1⟩ = none :=
  ⟨rfl, rfl, rfl, rfl⟩

/-- Claim C10: whenever `claim_next_crawl_job` yields a present job object
whose `id` field is missing or falsy (null, `0`, the empty string, ...),
one worker iteration only sleeps idle — it performs no validation, no
fetch and no terminal marking — whether the envelope arrives bare or
wrapped in a singleton list. -/
theorem claim_C10_theorem :
    ∀ (fields : List (String × JVal)) (fetch : String → Except String FetchResp)
      (stagingExc : Option String) (cutoff : PyDate),
      (jGet fields "id" = none ∨
        ∃ idv, jGet fields "id" = some idv ∧ pyTruthy idv = false) →
      workerStep (.obj fields) fetch stagingExc cutoff = some [.sleep_idle] ∧
      workerStep (.arr [.obj fields]) fetch stagingExc cutoff = some [.sleep_idle] := by
  intro fields fetch stg cutoff hid
  have harr : workerStep (.arr [.obj fields]) fetch stg cutoff =
      workerStep (.obj fields) fetch stg cutoff := rfl
  suffices h : workerStep (.obj fields) fetch stg cutoff = some [.sleep_idle] by
    exact ⟨h, by rw [harr, h]⟩
  show workerJobStep (.obj fields) fetch stg cutoff = some [.sleep_idle]
  cases fields with
  | nil => rfl
  | cons kv rest =>
    rw [workerJobStep,
        if_neg (by simp [pyTruthy] : ¬pyTruthy (JVal.obj (kv :: rest)) = false)]
    rcases hid with hnone | ⟨idv, hv, hfalse⟩
    · show workerObjStep (kv :: rest) fetch stg cutoff = some [.sleep_idle]
      rw [workerObjStep, hnone]
    · show workerObjStep (kv :: rest) fetch stg cutoff = some [.sleep_idle]
      rw [workerObjStep, hv]
      simp only [if_pos hfalse]

/-- Witness for claim C10 at the hypothetical falsy ids the claim names:
`0`, the empty string, and null (list-wrapped). -/
theorem claim_C10_witness :
    workerStep (.obj [("id", JVal.num 0)]) (fun _ => .error "ConnectionError")
      none ⟨2024, 1, 1⟩ = some [.sleep_idle] ∧
    workerStep (.obj [("id", JVal.str "")]) (fun _ => .error "ConnectionError")
      none ⟨2024, 1, 1⟩ = some [.sleep_idle] ∧
    workerStep (.arr [.obj [("id", JVal.null)]]) (fun _ => .error "ConnectionError")
      none ⟨2024, 1, 1⟩ = some [.sleep_idle] :=
  ⟨(claim_C10_theorem [("id", JVal.num 0)] _ none _
      (Or.inr ⟨JVal.num 0, rfl, rfl⟩)).1,
   (claim_C10_theorem [("id", JVal.str "")] _ none _
      (Or.inr ⟨JVal.str "", rfl, rfl⟩)).1,
   (claim_C10_theorem [("id", JVal.null)] _ none _
      (Or.inr ⟨JVal.null, rfl, rfl⟩)).2⟩

theorem invalid_reason_split (code : String) (j r u : JVal) (p : Option Nat) :
    _invalid_reason code j r u p =
      code ++ "|" ++
        ("job_id=" ++ pyStr j ++ "|recipe_id=" ++ pyStr r ++ "|requested_url=" ++
          _short_repr u ++
          (match p with
           | none => ""
           | some n => "|parsed_recipe_id=" ++ natStr n)) := by
  unfold _invalid_reason
  simp only [String.append_assoc]
  rfl

theorem jGet_nil_none (k : String) : jGet [] k = none := rfl

/-- Claim C4 (amended): for a claimed job with a truthy id whose
`requested_url` is a string that is non-empty after trimming but does not
parse, under the exact suffix-free canonical pattern, into an id equal to
the job's declared `recipe_id`, the worker's only action is the invalid
marking whose pipe-joined reason starts with the code
`bad_requested_url` — in particular no fetch is issued. -/
theorem claim_C4_theorem :
    ∀ (fields : List (String × JVal)) (idv : JVal)
      (fetch : String → Except String FetchResp) (stagingExc : Option String)
      (cutoff : PyDate) (s : String) (k : Int),
      jGet fields "id" = some idv → pyTruthy idv = true →
      jGet fields "requested_url" = some (.str s) → pyStrip s ≠ "" →
      jGet fields "recipe_id" = some (.num k) →
      (_job_recipe_id_from_url (some s) = none ∨
        ∃ rid, _job_recipe_id_from_url (some s) = some rid ∧ (rid : Int) ≠ k) →
      ∃ rest, workerStep (.obj fields) fetch stagingExc cutoff =
        some [.mark_invalid ("bad_requested_url|" ++ rest) none] := by
  intro fields idv fetch stg cutoff s k hid htr hurl hstrip hrec hmis
  cases fields with
  | nil => rw [jGet_nil_none] at hid; exact absurd hid (by simp)
  | cons kv rest =>
    have hobj : workerStep (.obj (kv :: rest)) fetch stg cutoff =
        workerObjStep (kv :: rest) fetch stg cutoff := by
      show workerJobStep (.obj (kv :: rest)) fetch stg cutoff = _
      rw [workerJobStep,
          if_neg (by simp [pyTruthy] : ¬pyTruthy (JVal.obj (kv :: rest)) = false)]
    rw [hobj, workerObjStep, hid]
    dsimp only
    rw [if_neg (by simp [htr])]
    unfold workerValidate jGetD
    rw [hurl]
    simp only [Option.getD_some]
    rw [if_neg hstrip]
    rcases hmis with hnone | ⟨rid, hrid, hne⟩
    · rw [hnone]
      dsimp only
      rw [invalid_reason_split]
      exact ⟨_, rfl⟩
    · rw [hrid]
      dsimp only
      rw [hrec]
      dsimp only [pyIntOpt]
      rw [if_pos (Ne.symm hne), invalid_reason_split]
      exact ⟨_, rfl⟩

/-- Claim C4 counterexample: a `requested_url` of a single space is a
non-empty string that does not parse, yet the worker marks the job with
reason code `missing_requested_url`, not `bad_requested_url` (the blank
check fires first on the trimmed string). -/
theorem claim_C4_counterexample :
    workerStep
      (.obj [("id", .num 1), ("requested_url", .str " "), ("recipe_id", .num 790)])
      (fun _ => .error "ConnectionError") none ⟨2024, 1, 1⟩ =
      some [.mark_invalid
        "missing_requested_url|job_id=1|recipe_id=790|requested_url=' '" none] ∧
    ("missing_requested_url|job_id=1|recipe_id=790|requested_url=' '").data.take 18 ≠
      "bad_requested_url|".data :=
  ⟨rfl, by decide⟩

/-- Witness for claim C4 at the claim's own example: a URL parsing to id
789 on a job declaring recipe id 790. -/
theorem claim_C4_witness :
    ∃ rest, workerStep
      (.obj [("id", .num 1),
             ("requested_url", .str "https://cookpad.com/vn/cong-thuc/789"),
             ("recipe_id", .num 790)])
      (fun _ => .error "ConnectionError") none ⟨2024, 1, 1⟩ =
      some [.mark_invalid ("bad_requested_url|" ++ rest) none] :=
  claim_C4_theorem _ (.num 1) _ none _ "https://cookpad.com/vn/cong-thuc/789" 790
    rfl rfl rfl (by decide) rfl (Or.inr ⟨789, rfl, by decide⟩)

/-- Claim C5: once a claimed job validates, the fetch returns 200 on the
requested URL, the parse yields a recipe, and the staging write succeeds,
the worker makes exactly one of the two freshness calls — the
keyword-feedback update when the parsed publish date is present and
strictly older than the cutoff, and the promote call otherwise (date
absent or not older) — and in either case then marks the job done. -/
theorem claim_C5_theorem :
    ∀ (fields : List (String × JVal)) (idv : JVal)
      (fetch : String → Except String FetchResp) (s : String) (rid : Nat) (k : Int)
      (resp : FetchResp) (parsed : ParsedRecipe) (cutoff : PyDate),
      jGet fields "id" = some idv → pyTruthy idv = true →
      jGet fields "requested_url" = some (.str s) → pyStrip s ≠ "" →
      jGet fields "recipe_id" = some (.num k) →
      _job_recipe_id_from_url (some s) = some rid → (rid : Int) = k →
      fetch s = .ok resp → resp.status = 200 → resp.url = s →
      parse_jsonld_recipe resp.blocks s rid = some (some parsed) →
      ((∀ (dt : PyDateTime) (kv pv : JVal) (pg : Int),
          parsed.date_published = some dt → PyDate.lt dt.dateOf cutoff = true →
          jGet fields "keyword" = some kv → jGet fields "page" = some pv →
          pyIntOpt pv = some pg →
          workerStep (.obj fields) fetch none cutoff =
            some [.http_fetch s, .staging_write,
                  .update_keyword_feedback kv pg dt.dateOf, .mark_done]) ∧
       (∀ dt : PyDateTime,
          parsed.date_published = some dt → PyDate.lt dt.dateOf cutoff = false →
          workerStep (.obj fields) fetch none cutoff =
            some [.http_fetch s, .staging_write,
                  .promote_recipe_if_recent rid cutoff, .mark_done]) ∧
       (parsed.date_published = none →
          workerStep (.obj fields) fetch none cutoff =
            some [.http_fetch s, .staging_write,
                  .promote_recipe_if_recent rid cutoff, .mark_done])) := by
  intro fields idv fetch s rid k resp parsed cutoff
  intro hid htr hurl hstrip hrec hparse hkr hfetch hstatus hrespurl hjson
  have hstage : workerStep (.obj fields) fetch none cutoff =
      workerFetchStage fields s rid fetch none cutoff := by
    cases fields with
    | nil => rw [jGet_nil_none] at hid; exact absurd hid (by simp)
    | cons kv rest =>
      have hobj : workerStep (.obj (kv :: rest)) fetch none cutoff =
          workerObjStep (kv :: rest) fetch none cutoff := by
        show workerJobStep (.obj (kv :: rest)) fetch none cutoff = _
        rw [workerJobStep,
            if_neg (by simp [pyTruthy] : ¬pyTruthy (JVal.obj (kv :: rest)) = false)]
      rw [hobj, workerObjStep, hid]
      dsimp only
      rw [if_neg (by simp [htr])]
      unfold workerValidate jGetD
      rw [hurl]
      simp only [Option.getD_some]
      rw [if_neg hstrip, hparse]
      dsimp only
      rw [hrec]
      dsimp only [pyIntOpt]
      rw [if_neg (by omega : ¬k ≠ (rid : Int))]
  have hcore : workerFetchStage fields s rid fetch none cutoff =
      (match parsed.date_published with
       | some dt =>
         if PyDate.lt dt.dateOf cutoff then
           match jGet fields "keyword" with
           | none => none
           | some kv =>
             match jGet fields "page" with
             | none => none
             | some pv =>
               match pyIntOpt pv with
               | none => none
               | some pg =>
                 some [.http_fetch s, .staging_write,
                       .update_keyword_feedback kv pg dt.dateOf, .mark_done]
         else
           some [.http_fetch s, .staging_write,
                 .promote_recipe_if_recent rid cutoff, .mark_done]
       | none =>
         some [.http_fetch s, .staging_write,
               .promote_recipe_if_recent rid cutoff, .mark_done]) := by
    unfold workerFetchStage
    rw [hfetch]
    dsimp only
    rw [if_neg (by rw [hstatus]; decide),
        if_neg (by rw [hrespurl]; exact fun hc => hc rfl),
        if_neg (by rw [hstatus]; decide),
        if_neg (by rw [hstatus]; decide),
        if_neg (by rw [hstatus]; exact fun hc => hc rfl),
        hjson]
  refine ⟨?_, ?_, ?_⟩
  · intro dt kv pv pg hdp hlt hkv hpv hpg
    rw [hstage, hcore, hdp]
    dsimp only
    rw [if_pos hlt, hkv]
    dsimp only
    rw [hpv]
    dsimp only
    rw [hpg]
  · intro dt hdp hlt
    rw [hstage, hcore, hdp]
    dsimp only
    rw [if_neg (by rw [hlt]; exact fun hc => nomatch hc)]
  · intro hdp
    rw [hstage, hcore, hdp]

/-- The concrete job fields of the claim C5 witness. -/
def c5Fields : List (String × JVal) :=
  [("id", .num 9),
   ("requested_url", .str "https://cookpad.com/vn/cong-thuc/77"),
   ("recipe_id", .num 77), ("keyword", .str "bo"), ("page", .num 2)]

/-- Blocks of a recipe page published 2020-01-05. -/
def c5OldBlocks : List (Option JVal) :=
  [some (.obj [("@type", .str "Recipe"),
               ("datePublished", .str "2020-01-05T10:00:00Z")])]

/-- Blocks of a recipe page with no publish date. -/
def c5NewBlocks : List (Option JVal) :=
  [some (.obj [("@type", .str "Recipe")])]

/-- What the parser extracts from `c5OldBlocks`. -/
def c5ParsedOld : ParsedRecipe :=
  ⟨77, "https://cookpad.com/vn/cong-thuc/77", none, none, none,
   some ⟨⟨2020, 1, 5⟩, 10, 0, 0, 0⟩, none, none, none, none, none,
   [], [], [], none, none, none, []⟩

/-- What the parser extracts from `c5NewBlocks`. -/
def c5ParsedNew : ParsedRecipe :=
  ⟨77, "https://cookpad.com/vn/cong-thuc/77", none, none, none,
   none, none, none, none, none, none, [], [], [], none, none, none, []⟩

/-- Witness for claim C5 at a concrete job: a page whose recipe was
published in 2020 (older than a 2024 cutoff) takes the feedback path; the
same job against a page with no publish date takes the promote path. -/
theorem claim_C5_witness :
    workerStep (.obj c5Fields)
      (fun u => .ok ⟨200, u, c5OldBlocks⟩) none ⟨2024, 1, 1⟩ =
      some [.http_fetch "https://cookpad.com/vn/cong-thuc/77", .staging_write,
            .update_keyword_feedback (.str "bo") 2 ⟨2020, 1, 5⟩, .mark_done] ∧
    workerStep (.obj c5Fields)
      (fun u => .ok ⟨200, u, c5NewBlocks⟩) none ⟨2024, 1, 1⟩ =
      some [.http_fetch "https://cookpad.com/vn/cong-thuc/77", .staging_write,
            .promote_recipe_if_recent 77 ⟨2024, 1, 1⟩, .mark_done] := by
  constructor
  · exact (claim_C5_theorem c5Fields (.num 9)
      (fun u => .ok ⟨200, u, c5OldBlocks⟩) "https://cookpad.com/vn/cong-thuc/77" 77 77
      ⟨200, "https://cookpad.com/vn/cong-thuc/77", c5OldBlocks⟩ c5ParsedOld ⟨2024, 1, 1⟩
      rfl rfl rfl (by decide) rfl rfl rfl rfl rfl rfl rfl).1
      ⟨⟨2020, 1, 5⟩, 10, 0, 0, 0⟩ (.str "bo") (.num 2) 2 rfl rfl rfl rfl rfl
  · exact (claim_C5_theorem c5Fields (.num 9)
      (fun u => .ok ⟨200, u, c5NewBlocks⟩) "https://cookpad.com/vn/cong-thuc/77" 77 77
      ⟨200, "https://cookpad.com/vn/cong-thuc/77", c5NewBlocks⟩ c5ParsedNew ⟨2024, 1, 1⟩
      rfl rfl rfl (by decide) rfl rfl rfl rfl rfl rfl rfl).2.2 rfl

/-- Specification-side split: cut the text at every `,` and every `;`
(empty fragments preserved). -/
def splitEitherAux : List Char → List Char → List (List Char)
  | [], cur => [cur.reverse]
  | c :: rest, cur =>
    if c = ',' || c = ';' then cur.reverse :: splitEitherAux rest []
    else splitEitherAux rest (c :: cur)

/-- Split a character list on both `,` and `;`. -/
def splitEither (cs : List Char) : List (List Char) :=
  splitEitherAux cs []

theorem replaceSemi_cons (c : Char) (rest : List Char) :
    replaceSemi (c :: rest) = (if c = ';' then ',' else c) :: replaceSemi rest := rfl

theorem splitComma_replaceSemi :
    ∀ (cs cur : List Char), splitCommaAux (replaceSemi cs) cur = splitEitherAux cs cur := by
  intro cs
  induction cs with
  | nil => intro cur; rfl
  | cons c rest ih =>
    intro cur
    by_cases hsemi : c = ';'
    · subst hsemi
      have h1 : splitCommaAux (replaceSemi (';' :: rest)) cur =
          cur.reverse :: splitCommaAux (replaceSemi rest) [] := rfl
      have h2 : splitEitherAux (';' :: rest) cur =
          cur.reverse :: splitEitherAux rest [] := rfl
      rw [h1, h2, ih []]
    · by_cases hcomma : c = ','
      · subst hcomma
        have h1 : splitCommaAux (replaceSemi (',' :: rest)) cur =
            cur.reverse :: splitCommaAux (replaceSemi rest) [] := rfl
        have h2 : splitEitherAux (',' :: rest) cur =
            cur.reverse :: splitEitherAux rest [] := rfl
        rw [h1, h2, ih []]
      · rw [replaceSemi_cons, if_neg hsemi, splitCommaAux, if_neg hcomma,
            splitEitherAux, if_neg (by simp [hcomma, hsemi]), ih (c :: cur)]

/-- Claim C8 (amended): for a string-valued keywords field the extraction
splits on both `,` and `;`, trims each fragment and drops empty ones to
form the keywords list, and keeps as `keywords_raw` the input trimmed of
leading and trailing whitespace (absent when blank) — not the verbatim
original; the claim's example `"a, b;  c"` (unchanged by trimming) yields
`keywords_raw = "a, b;  c"` and keywords `["a", "b", "c"]`. -/
theorem claim_C8_theorem :
    (∀ s : String,
      _extract_keywords (.str s) =
        ((if pyStrip s = "" then none else some (pyStrip s)),
         ((((splitEither (pyStripL s.data)).map pyStripL).filter (· ≠ [])).map
           String.mk))) ∧
    _extract_keywords (.str "a, b;  c") = (some "a, b;  c", ["a", "b", "c"]) := by
  constructor
  · intro s
    show ((if pyStripL s.data = [] then none else some (String.mk (pyStripL s.data))),
        ((((splitComma (replaceSemi (pyStripL s.data))).map pyStripL).filter
          (· ≠ [])).map String.mk)) = _
    have hsplit : splitComma (replaceSemi (pyStripL s.data)) =
        splitEither (pyStripL s.data) := splitComma_replaceSemi (pyStripL s.data) []
    rw [hsplit]
    have hmk : (if pyStripL s.data = [] then none
          else some (String.mk (pyStripL s.data))) =
        (if pyStrip s = "" then none else some (pyStrip s)) := by
      by_cases hs : pyStripL s.data = []
      · rw [if_pos hs, if_pos (show pyStrip s = "" by
          show String.mk (pyStripL s.data) = ""
          rw [hs])]
      · rw [if_neg hs,
            if_neg (fun hc : pyStrip s = "" => hs (congrArg String.data hc))]
        rfl
    rw [hmk]
  · rfl

/-- Claim C8 counterexample: for the input `" a,b"` the preserved
`keywords_raw` is the trimmed `"a,b"`, not the verbatim original. -/
theorem claim_C8_counterexample :
    _extract_keywords (.str " a,b") = (some "a,b", ["a", "b"]) ∧
    ("a,b" : String) ≠ " a,b" :=
  ⟨rfl, by decide⟩

/-- Witness for claim C8 at the claim's own example string. -/
theorem claim_C8_witness :
    _extract_keywords (.str "a, b;  c") = (some "a, b;  c", ["a", "b", "c"]) :=
  claim_C8_theorem.2
